import Mathlib

/-
  Verification of the Peak transpiler (generic classes for Apex).

  This file is a shallow embedding, in Lean 4, of the generic-expression
  parser (pkg/parser) and the template-instantiation engine / directory
  pipeline (pkg/transpiler) of the Peak repository, together with theorems
  settling the specification claims about them.

  Embedding conventions:
  - Go strings (byte slices) are modelled as List Char, abbreviated Str.
    All inputs appearing in the claims are ASCII, where bytes and unicode
    scalars coincide.  Positions are Nat indices; reading past the end
    returns the NUL sentinel, exactly as the Go cursor primitives do.
  - Go maps are modelled as association lists with overwrite-on-insert.
    Go map iteration order is unspecified; the association list fixes one
    order.  Every theorem below that depends on the content of such a map
    is stated through lookups or list membership, which are order
    independent, or concerns runs in which the order provably does not
    affect the result.
  - Loops are modelled with an explicit fuel argument so that every
    definition is executable by kernel reduction.  Each Go loop advances
    its cursor, so fuel linear in the input length is always sufficient;
    top-level wrappers supply such fuel.
  - Error values: the Go ParseError carries line, column and the source
    line, all derived from the input and a byte offset; the embedding
    keeps the offset (field pos) and the message.  Quote punctuation
    around interpolated names in messages is omitted.
-/

abbrev Str := List Char

deriving instance DecidableEq for Except

/-- Character at position i, with the NUL sentinel out of range
(Go: Parser.current / Parser.peek). -/
def charAt (s : Str) (i : Nat) : Char := s.getD i (Char.ofNat 0)

/-- Go s[a:b] for a ≤ b (clipped at the ends like the uses in the source). -/
def strSlice (s : Str) (a b : Nat) : Str := (s.drop a).take (b - a)

/-- unicode.IsSpace restricted to byte runes, as applied by the scanners. -/
def goIsSpace (c : Char) : Bool :=
  c = ' ' || c = '\t' || c = '\n' || c.toNat = 0x0b || c.toNat = 0x0c ||
  c = '\r' || c.toNat = 0x85 || c.toNat = 0xa0

/-- unicode.IsLetter restricted to byte runes (ASCII and Latin-1 letters). -/
def goIsLetter (c : Char) : Bool :=
  ('A' ≤ c && c ≤ 'Z') || ('a' ≤ c && c ≤ 'z') ||
  c.toNat = 0xaa || c.toNat = 0xb5 || c.toNat = 0xba ||
  (0xc0 ≤ c.toNat && c.toNat ≤ 0xd6) || (0xd8 ≤ c.toNat && c.toNat ≤ 0xf6) ||
  (0xf8 ≤ c.toNat && c.toNat ≤ 0xff)

/-- unicode.IsDigit restricted to byte runes. -/
def goIsDigit (c : Char) : Bool := '0' ≤ c && c ≤ '9'

/-- The character class accepted inside identifiers by
Parser.parseIdentifier: letters, digits and the underscore. -/
def goIsIdentChar (c : Char) : Bool := goIsLetter c || goIsDigit c || c = '_'

/-- A parse error: the byte offset in the input plus the message
(the Go ParseError derives line, column and source line from these). -/
structure ParseError where
  msg : String
  pos : Nat
deriving DecidableEq, Repr

/-- GenericExpr: a parsed generic expression (source: type GenericExpr). -/
inductive GenericExpr where
  | mk (baseType : Str) (typeArgs : List GenericExpr) (isSimple : Bool)
deriving Repr

def GenericExpr.baseType : GenericExpr → Str | .mk b _ _ => b

def GenericExpr.typeArgs : GenericExpr → List GenericExpr | .mk _ a _ => a

def GenericExpr.isSimple : GenericExpr → Bool | .mk _ _ s => s

mutual
/-- GenericExpr.String from the source: the canonical textual rendering,
baseType alone when simple, otherwise baseType followed by the bracketed,
comma separated renderings of the type arguments.  (Named render here
because String is the Lean string type.) -/
def GenericExpr.render : GenericExpr → Str
  | .mk b args s => if s then b else b ++ ('<' :: renderArgs args) ++ ">".data

/-- strings.Join(args, ", ") over recursively rendered type arguments. -/
def renderArgs : List GenericExpr → Str
  | [] => []
  | [a] => a.render
  | a :: b :: rest => a.render ++ ", ".data ++ renderArgs (b :: rest)
end

mutual
/-- GenerateConcreteClassName from the source: baseType followed by the
concatenation, with no separator, of each type argument rendered by its
BaseType when the argument is simple and recursively otherwise. -/
def GenerateConcreteClassName : GenericExpr → Str
  | .mk b args _ => b ++ concreteNameArgs args

/-- The strings.Join over the per-argument parts of GenerateConcreteClassName. -/
def concreteNameArgs : List GenericExpr → Str
  | [] => []
  | a :: rest =>
      (if a.isSimple then a.baseType else GenerateConcreteClassName a) ++ concreteNameArgs rest
end

/-- GenerateConcreteMethodName from the source: the method name followed by
the concatenation of the type argument strings. -/
def GenerateConcreteMethodName (methodName : Str) (typeArgs : List Str) : Str :=
  methodName ++ typeArgs.flatten

mutual
/-- The data-model invariant of GenericExpression trees: isSimple holds
exactly on leaves, at every node (spec section 3). -/
def GenericExpr.wfB : GenericExpr → Bool
  | .mk _ args s => (s == args.isEmpty) && wfListB args

/-- GenericExpr.wfB on every element of a list. -/
def wfListB : List GenericExpr → Bool
  | [] => true
  | a :: rest => a.wfB && wfListB rest
end

mutual
/-- Modelled from the spec (section 4.6, name mangling), for comparison
with GenerateConcreteClassName: a simple expression mangles to its base
name, a compound expression to the base name followed by the mangled
names of every type argument concatenated with no separator, recursively. -/
def mangleSpec : GenericExpr → Str
  | .mk b args _ => b ++ mangleSpecArgs args

/-- Concatenation of mangleSpec over a list of arguments. -/
def mangleSpecArgs : List GenericExpr → Str
  | [] => []
  | a :: rest => mangleSpec a ++ mangleSpecArgs rest
end

/- ### Scanner primitives (cursor movement), all fueled -/

/-- Parser.skipWhitespace: advance while the current character is space. -/
def skipWhitespaceAux (s : Str) : Nat → Nat → Nat
  | 0, pos => pos
  | fuel+1, pos =>
      if pos < s.length && goIsSpace (charAt s pos) then skipWhitespaceAux s fuel (pos+1) else pos

def skipWhitespace (s : Str) (pos : Nat) : Nat := skipWhitespaceAux s (s.length + 1) pos

/-- The inner loop of Parser.skipComments for a line comment: skip until
the newline, then past it. -/
def skipLineRest (s : Str) : Nat → Nat → Nat
  | 0, pos => pos
  | fuel+1, pos =>
      if pos < s.length && charAt s pos ≠ '\n' then skipLineRest s fuel (pos+1)
      else if pos < s.length && charAt s pos = '\n' then pos + 1
      else pos

/-- The inner loop of Parser.skipComments for a block comment: scan while
pos < length-1 for the closing star slash. -/
def skipBlockRest (s : Str) : Nat → Nat → Nat
  | 0, pos => pos
  | fuel+1, pos =>
      if pos < s.length - 1 then
        if charAt s pos = '*' && charAt s (pos+1) = '/' then pos + 2
        else skipBlockRest s fuel (pos+1)
      else pos

/-- Parser.skipComments: repeatedly skip line and block comments. -/
def skipCommentsAux (s : Str) : Nat → Nat → Nat
  | 0, pos => pos
  | fuel+1, pos =>
      if pos < s.length then
        if charAt s pos = '/' && charAt s (pos+1) = '/' then
          skipCommentsAux s fuel (skipLineRest s (s.length + 1) (pos + 2))
        else if charAt s pos = '/' && charAt s (pos+1) = '*' then
          skipCommentsAux s fuel (skipBlockRest s (s.length + 1) (pos + 2))
        else pos
      else pos

def skipComments (s : Str) (pos : Nat) : Nat := skipCommentsAux s (s.length + 1) pos

/-- Parser.skipWhitespaceAndComments: fixed point of the two skips. -/
def skipWsCommentsAux (s : Str) : Nat → Nat → Nat
  | 0, pos => pos
  | fuel+1, pos =>
      let next := skipComments s (skipWhitespace s pos)
      if next = pos then pos else skipWsCommentsAux s fuel next

def skipWsComments (s : Str) (pos : Nat) : Nat := skipWsCommentsAux s (s.length + 1) pos

/-- End position of Parser.parseIdentifier: the maximal run of identifier
characters from pos. -/
def identEndAux (s : Str) : Nat → Nat → Nat
  | 0, pos => pos
  | fuel+1, pos =>
      if pos < s.length && goIsIdentChar (charAt s pos) then identEndAux s fuel (pos+1) else pos

/-- Parser.parseIdentifier: the identifier starting at pos (empty when the
scan does not start on an identifier character) and the new position. -/
def parseIdentifier (s : Str) (pos : Nat) : Str × Nat :=
  let e := identEndAux s (s.length + 1) pos
  (strSlice s pos e, e)

/- ### Generic-expression parsing (Parser.ParseGeneric / parseTypeArgument) -/

mutual
/-- Parser.ParseGeneric: called with the cursor at the angle bracket after
baseType; parses the bracketed comma separated type arguments. -/
def ParseGeneric (s : Str) : Nat → Str → Nat → Except ParseError (GenericExpr × Nat)
  | 0, _, pos => .error ⟨"fuel exhausted", pos⟩
  | fuel+1, baseType, pos =>
      if charAt s pos ≠ '<' then .error ⟨"expected <", pos⟩
      else parseGenericLoop s fuel baseType [] (pos + 1)

/-- The type-argument loop inside Parser.ParseGeneric. -/
def parseGenericLoop (s : Str) :
    Nat → Str → List GenericExpr → Nat → Except ParseError (GenericExpr × Nat)
  | 0, _, _, pos => .error ⟨"fuel exhausted", pos⟩
  | fuel+1, baseType, args, pos =>
      let pos := skipWhitespace s pos
      match parseTypeArgument s fuel pos with
      | .error e => .error e
      | .ok (arg, pos) =>
          let args := args ++ [arg]
          let pos := skipWhitespace s pos
          if charAt s pos = '>' then .ok (.mk baseType args false, pos + 1)
          else if charAt s pos = ',' then parseGenericLoop s fuel baseType args (pos + 1)
          else .error ⟨("expected > or , got " : String).push (charAt s pos), pos⟩

/-- Parser.parseTypeArgument: a simple type name or a nested generic. -/
def parseTypeArgument (s : Str) : Nat → Nat → Except ParseError (GenericExpr × Nat)
  | 0, pos => .error ⟨"fuel exhausted", pos⟩
  | fuel+1, pos =>
      let pos := skipWhitespace s pos
      match parseIdentifier s pos with
      | (typeName, pos) =>
          if typeName = [] then .error ⟨"expected type name", pos⟩
          else
            let pos' := skipWhitespace s pos
            if charAt s pos' = '<' then ParseGeneric s fuel typeName pos'
            else .ok (.mk typeName [] true, pos')
end

/-- isBuiltInGeneric from the source: List, Set and Map are the built-in
Apex generic types. -/
def isBuiltInGeneric (typeName : Str) : Bool :=
  typeName = "List".data || typeName = "Set".data || typeName = "Map".data

/-- Association list standing in for a Go map from literal text to
expression; insertion overwrites an existing key. -/
abbrev GMap := List (Str × GenericExpr)

/-- Go map assignment m[k] = v on an association list. -/
def mapInsert {α : Type} (m : List (Str × α)) (k : Str) (v : α) : List (Str × α) :=
  if m.any (fun p => p.1 = k) then m.map (fun p => if p.1 = k then (k, v) else p)
  else m ++ [(k, v)]

/-- Go map read m[k] (with presence flag via Option). -/
def mapLookup {α : Type} (m : List (Str × α)) (k : Str) : Option α :=
  (m.find? (fun p => p.1 = k)).map (fun p => p.2)

/-- collectNestedGenerics from the source: record every nested non-simple,
non-built-in argument under its rendered text, recursively.  The fuel
bounds the descent; callers pass fuel exceeding the expression size. -/
def collectNestedArgs : Nat → List GenericExpr → GMap → GMap
  | 0, _, m => m
  | _+1, [], m => m
  | fuel+1, a :: rest, m =>
      let m :=
        if !a.isSimple && !isBuiltInGeneric a.baseType then
          collectNestedArgs fuel a.typeArgs (mapInsert m a.render a)
        else m
      collectNestedArgs fuel rest m

def collectNestedGenerics (fuel : Nat) (expr : GenericExpr) (m : GMap) : GMap :=
  collectNestedArgs fuel expr.typeArgs m

/-- The scanning loop of Parser.FindGenerics.  One fuel unit is spent per
Go loop iteration; an iteration either advances the cursor or leaves it on
an angle bracket that the next iteration steps over, so fuel twice the
input length plus two always suffices (the wrapper supplies it). -/
def findGenericsLoop (s : Str) : Nat → Nat → GMap → GMap
  | 0, _, m => m
  | fuel+1, pos, m =>
      let pos := skipWsComments s pos
      if pos ≥ s.length then m
      else if !(goIsLetter (charAt s pos) || charAt s pos = '_') then
        findGenericsLoop s fuel (pos + 1) m
      else
        let start := pos
        match parseIdentifier s pos with
        | (identifier, pos) =>
            let pos := skipWhitespace s pos
            if charAt s pos = '<' then
              if charAt s (pos+1) ≠ '=' && !goIsSpace (charAt s (pos+1)) then
                match ParseGeneric s (4 * s.length + 4) identifier pos with
                | .error _ => findGenericsLoop s fuel (pos + 1) m
                | .ok (expr, pos') =>
                    if !isBuiltInGeneric expr.baseType then
                      let originalText := strSlice s start pos'
                      let m := mapInsert m originalText expr
                      let m := collectNestedGenerics (s.length + 1) expr m
                      findGenericsLoop s fuel pos' m
                    else findGenericsLoop s fuel pos' m
              else findGenericsLoop s fuel pos m
            else findGenericsLoop s fuel pos m

/-- Parser.FindGenerics: every generic-looking usage outside comments,
with nested sub-expressions, excluding the built-in generics.  The Go
function also returns an error value that is always nil, omitted here. -/
def FindGenerics (s : Str) : GMap := findGenericsLoop s (2 * s.length + 2) 0 []

/- ### Class-template scanner (Parser.FindGenericClassDefinitions) -/

/-- GenericClassDef from the source: one generic class declaration. -/
structure GenericClassDef where
  className : Str
  typeParams : List Str
  modifiers : Str
  body : Str
  startPos : Nat
  endPos : Nat
deriving DecidableEq, Repr

/-- strings.TrimSpace. -/
def trimSpace (s : Str) : Str :=
  ((s.dropWhile goIsSpace).reverse.dropWhile goIsSpace).reverse

/-- Parser.matchKeyword: the keyword occurs at pos on true word boundaries. -/
def matchKeyword (s : Str) (pos : Nat) (keyword : Str) : Bool :=
  if pos + keyword.length > s.length then false
  else if pos > 0 && (goIsLetter (charAt s (pos-1)) || goIsDigit (charAt s (pos-1))) then false
  else if strSlice s pos (pos + keyword.length) ≠ keyword then false
  else if pos + keyword.length < s.length &&
      (goIsLetter (charAt s (pos + keyword.length)) || goIsDigit (charAt s (pos + keyword.length)))
    then false
  else true

/-- The parameter loop of Parser.parseTypeParameters (class declarations):
single letters, no duplicates, doubled angle brackets rejected. -/
def parseTypeParamsLoop (s : Str) : Nat → List Str → Nat → Except ParseError (List Str × Nat)
  | 0, _, pos => .error ⟨"fuel exhausted", pos⟩
  | fuel+1, params, pos =>
      let pos := skipWhitespace s pos
      if charAt s pos = '>' && charAt s (pos+1) = '>' then
        .error ⟨">> is not allowed in type parameters", pos⟩
      else
        let paramStart := pos
        match parseIdentifier s pos with
        | (param, pos) =>
            if param = [] then .error ⟨"expected type parameter", pos⟩
            else if param.length ≠ 1 then
              .error ⟨"type parameter must be a single letter", paramStart⟩
            else if !goIsLetter (charAt param 0) then
              .error ⟨"type parameter must be a letter", paramStart⟩
            else if params.any (fun q => q = param) then
              .error ⟨"duplicate type parameter", paramStart⟩
            else
              let params := params ++ [param]
              let pos := skipWhitespace s pos
              if charAt s pos = '>' then
                if charAt s (pos+1) = '>' then
                  .error ⟨">> is not allowed in type parameters", pos⟩
                else .ok (params, pos + 1)
              else if charAt s pos = ',' then parseTypeParamsLoop s fuel params (pos + 1)
              else .error ⟨"expected > or ,", pos⟩

/-- Parser.parseTypeParameters: the class-declaration type parameter list,
expected to start at an angle bracket. -/
def parseTypeParameters (s : Str) (pos : Nat) : Except ParseError (List Str × Nat) :=
  if charAt s pos ≠ '<' then .error ⟨"expected <", pos⟩
  else if charAt s (pos+1) = '<' then
    .error ⟨"<< is not allowed in type parameters", pos⟩
  else parseTypeParamsLoop s (s.length + 1) [] (pos + 1)

/-- The balanced-brace scan shared by extractClassBody and
extractMethodBody: consume until the matching closing brace. -/
def braceScanAux (s : Str) : Nat → Nat → Nat → Nat
  | 0, _, pos => pos
  | fuel+1, braceCount, pos =>
      if pos < s.length && braceCount > 0 then
        let braceCount :=
          if charAt s pos = '{' then braceCount + 1
          else if charAt s pos = '}' then braceCount - 1
          else braceCount
        braceScanAux s fuel braceCount (pos + 1)
      else pos

/-- The scan-to-opening-brace loop at the start of extractClassBody. -/
def findOpenBraceAux (s : Str) : Nat → Nat → Nat
  | 0, pos => pos
  | fuel+1, pos =>
      if pos < s.length && charAt s pos ≠ '{' then findOpenBraceAux s fuel (pos + 1) else pos

/-- Parser.extractClassBody: the text from the first opening brace through
its matching closing brace, and the end position. -/
def extractClassBody (s : Str) (pos : Nat) : Str × Nat :=
  let pos := skipWhitespace s pos
  let pos := findOpenBraceAux s (s.length + 1) pos
  if pos ≥ s.length then ([], pos)
  else
    let startBody := pos
    let endBody := braceScanAux s (s.length + 1) 1 (pos + 1)
    (strSlice s startBody endBody, endBody)

/-- One step of the class-definition scan after an identifier has been
parsed: the sharing-keyword sub-grammar, the class-keyword check and, on a
confirmed generic class, the declaration parse.  Returns either the next
scan state (position, previous identifier, modifier start, definitions) or
the positioned error that aborts the whole scan. -/
def classDefStep (s : Str) (identifier : Str) (pos : Nat) (prevIdentifier : Str)
    (modifierStart : Option Nat) (defs : List (Str × GenericClassDef)) :
    Except ParseError (Nat × Str × Option Nat × List (Str × GenericClassDef)) :=
  if identifier ≠ "class".data then .ok (pos, identifier, modifierStart, defs)
  else
    let classKeywordEnd := pos
    let classKeywordStart := classKeywordEnd - ("class".data).length
    let modifiers :=
      match modifierStart with
      | some m => if m < classKeywordStart then trimSpace (strSlice s m classKeywordStart) else []
      | none => []
    let pos := skipWhitespace s pos
    match parseIdentifier s pos with
    | (className, pos) =>
        if className = [] then .ok (pos, prevIdentifier, none, defs)
        else
          let pos := skipWhitespace s pos
          if charAt s pos ≠ '<' then .ok (pos, prevIdentifier, none, defs)
          else
            let startPos := match modifierStart with | none => classKeywordStart | some m => m
            match parseTypeParameters s pos with
            | .error e => .error e
            | .ok (typeParams, pos) =>
                match extractClassBody s pos with
                | (body, endPos) =>
                    let d : GenericClassDef :=
                      ⟨className, typeParams, modifiers, body, startPos, endPos⟩
                    .ok (endPos, prevIdentifier, none, mapInsert defs className d)

/-- The scanning loop of Parser.FindGenericClassDefinitions. -/
def findClassDefsLoop (s : Str) :
    Nat → Nat → Str → Option Nat → List (Str × GenericClassDef) →
    Except ParseError (List (Str × GenericClassDef))
  | 0, _, _, _, defs => .ok defs
  | fuel+1, pos, prevIdentifier, modifierStart, defs =>
      let pos := skipWsComments s pos
      if pos ≥ s.length then .ok defs
      else if !(goIsLetter (charAt s pos) || charAt s pos = '_') then
        findClassDefsLoop s fuel (pos + 1) [] none defs
      else
        let modifierStart := match modifierStart with | none => some pos | some m => some m
        match parseIdentifier s pos with
        | (identifier, pos) =>
            if identifier = "sharing".data &&
                !(prevIdentifier = "with".data || prevIdentifier = "without".data ||
                  prevIdentifier = "inherited".data) then
              let pos := skipWhitespace s pos
              let pos := if matchKeyword s pos "class".data then pos + 5 else pos
              findClassDefsLoop s fuel pos [] none defs
            else if identifier = "with".data || identifier = "without".data ||
                identifier = "inherited".data then
              let pos := skipWhitespace s pos
              match parseIdentifier s pos with
              | (nextWord, pos) =>
                  if nextWord ≠ "sharing".data then
                    if nextWord = "class".data then
                      let pos := skipWhitespace s pos
                      match parseIdentifier s pos with
                      | (_, pos) => findClassDefsLoop s fuel pos [] none defs
                    else findClassDefsLoop s fuel pos [] none defs
                  else
                    let pos := skipWhitespace s pos
                    match parseIdentifier s pos with
                    | (identifier2, pos) =>
                        match classDefStep s identifier2 pos [] modifierStart defs with
                        | .error e => .error e
                        | .ok (pos, prev, ms, defs) => findClassDefsLoop s fuel pos prev ms defs
            else
              match classDefStep s identifier pos prevIdentifier modifierStart defs with
              | .error e => .error e
              | .ok (pos, prev, ms, defs) => findClassDefsLoop s fuel pos prev ms defs

/-- Parser.FindGenericClassDefinitions: all generic class declarations, as
a map from class name to definition; a malformed type-parameter list
aborts the whole scan with its error. -/
def FindGenericClassDefinitions (s : Str) : Except ParseError (List (Str × GenericClassDef)) :=
  findClassDefsLoop s (s.length + 1) 0 [] none []

/- ### Generic-method scanner (Parser.FindGenericMethodDefinitions) -/

/-- GenericMethodDef from the source: one generic method declaration. -/
structure GenericMethodDef where
  className : Str
  methodName : Str
  typeParams : List Str
  signature : Str
  body : Str
  startPos : Nat
  endPos : Nat
deriving DecidableEq, Repr

/-- The parameter loop of Parser.parseTypeParameterList (generic methods):
single letters only; unlike the class-level loop there is no duplicate
check and no doubled-angle-bracket check. -/
def parseTypeParamListLoop (s : Str) : Nat → List Str → Nat → Except ParseError (List Str × Nat)
  | 0, _, pos => .error ⟨"fuel exhausted", pos⟩
  | fuel+1, params, pos =>
      let pos := skipWhitespace s pos
      match parseIdentifier s pos with
      | (param, pos) =>
          if param = [] then .error ⟨"expected type parameter name", pos⟩
          else if param.length ≠ 1 then
            .error ⟨"type parameter must be a single letter", pos - param.length⟩
          else
            let params := params ++ [param]
            let pos := skipWhitespace s pos
            if charAt s pos = '>' then .ok (params, pos + 1)
            else if charAt s pos = ',' then parseTypeParamListLoop s fuel params (pos + 1)
            else .error ⟨"expected > or ,", pos⟩

/-- Parser.parseTypeParameterList, positioned just after the opening angle
bracket of a method type-parameter list. -/
def parseTypeParameterList (s : Str) (pos : Nat) : Except ParseError (List Str × Nat) :=
  parseTypeParamListLoop s (s.length + 1) [] pos

/-- Parser.skipToMethodName: heuristically skip the return type (tracking
angle-bracket depth) until an identifier directly followed by an opening
parenthesis; on success the position is restored to the identifier start. -/
def skipToMethodNameAux (s : Str) : Nat → Int → Nat → Bool × Nat
  | 0, _, pos => (false, pos)
  | fuel+1, depth, pos =>
      if pos < s.length then
        let pos := skipWhitespace s pos
        if charAt s pos = '<' then skipToMethodNameAux s fuel (depth + 1) (pos + 1)
        else if charAt s pos = '>' then skipToMethodNameAux s fuel (depth - 1) (pos + 1)
        else if depth = 0 && (goIsLetter (charAt s pos) || charAt s pos = '_') then
          let savedPos := pos
          match parseIdentifier s pos with
          | (identifier, pos) =>
              if identifier = [] then (false, pos)
              else
                let pos := skipWhitespace s pos
                if charAt s pos = '(' then (true, savedPos)
                else skipToMethodNameAux s fuel depth pos
        else if charAt s pos = '(' then (false, pos)
        else skipToMethodNameAux s fuel depth (min (pos + 1) s.length)
      else (false, pos)

def skipToMethodName (s : Str) (pos : Nat) : Bool × Nat :=
  skipToMethodNameAux s (2 * s.length + 2) 0 pos

/-- Parser.skipToClosingParen: skip to the parenthesis closing the current
group, handling nesting; on success the position is at that parenthesis. -/
def skipToClosingParenAux (s : Str) : Nat → Nat → Nat → Bool × Nat
  | 0, _, pos => (false, pos)
  | fuel+1, depth, pos =>
      if pos < s.length then
        if charAt s pos = '(' then skipToClosingParenAux s fuel (depth + 1) (pos + 1)
        else if charAt s pos = ')' then
          if depth - 1 = 0 then (true, pos)
          else skipToClosingParenAux s fuel (depth - 1) (pos + 1)
        else skipToClosingParenAux s fuel depth (pos + 1)
      else (false, pos)

def skipToClosingParen (s : Str) (pos : Nat) : Bool × Nat :=
  skipToClosingParenAux s (s.length + 1) 1 pos

/-- Parser.extractMethodBody: the balanced-brace body starting at the
opening brace under the cursor. -/
def extractMethodBody (s : Str) (pos : Nat) : Str × Nat :=
  if charAt s pos ≠ '{' then ([], pos)
  else
    let startBody := pos
    let endBody := braceScanAux s (s.length + 1) 1 (pos + 1)
    (strSlice s startBody endBody, endBody)

/-- The method modifier keywords recognized by the generic-method scanner. -/
def methodModifiers : List Str :=
  ["public".data, "private".data, "protected".data, "static".data,
   "final".data, "override".data, "virtual".data, "abstract".data]

/-- The scanning loop of Parser.FindGenericMethodDefinitions. -/
def findMethodDefsLoop (s : Str) (className : Str) :
    Nat → Nat → List (Str × GenericMethodDef) → List (Str × GenericMethodDef)
  | 0, _, defs => defs
  | fuel+1, pos, defs =>
      let pos := skipWsComments s pos
      if pos ≥ s.length then defs
      else
        let modifierStart := pos
        match methodModifiers.find? (fun kw => matchKeyword s pos kw) with
        | none => findMethodDefsLoop s className fuel (pos + 1) defs
        | some kw =>
            let pos := skipWhitespace s (pos + kw.length)
            if charAt s pos ≠ '<' then findMethodDefsLoop s className fuel pos defs
            else
              let beforeAngle := pos
              match parseTypeParameterList s (pos + 1) with
              | .error _ => findMethodDefsLoop s className fuel (beforeAngle + 1) defs
              | .ok (typeParams, pos) =>
                  let pos := skipWhitespace s pos
                  match skipToMethodName s pos with
                  | (false, pos) => findMethodDefsLoop s className fuel pos defs
                  | (true, pos) =>
                      match parseIdentifier s pos with
                      | (methodName, pos) =>
                          if methodName = [] then findMethodDefsLoop s className fuel pos defs
                          else
                            let pos := skipWhitespace s pos
                            if charAt s pos ≠ '(' then findMethodDefsLoop s className fuel pos defs
                            else
                              match skipToClosingParen s (pos + 1) with
                              | (false, pos) => findMethodDefsLoop s className fuel pos defs
                              | (true, pos) =>
                                  let pos := pos + 1
                                  let pos := skipWhitespace s pos
                                  if charAt s pos ≠ '{' then
                                    findMethodDefsLoop s className fuel pos defs
                                  else
                                    let signature := trimSpace (strSlice s modifierStart pos)
                                    match extractMethodBody s pos with
                                    | (body, endPos) =>
                                        let key := className ++ ".".data ++ methodName
                                        let d : GenericMethodDef :=
                                          ⟨className, methodName, typeParams, signature,
                                           body, modifierStart, endPos⟩
                                        findMethodDefsLoop s className fuel endPos
                                          (mapInsert defs key d)

/-- Parser.FindGenericMethodDefinitions: generic method declarations keyed
by owner class and method name.  The Go function also returns an error
value that is always nil, omitted here. -/
def FindGenericMethodDefinitions (s : Str) (className : Str) : List (Str × GenericMethodDef) :=
  findMethodDefsLoop s className (s.length + 1) 0 []

/- ### Go string and path helpers used by the transpiler -/

/-- Whether p is an initial segment of s (Go strings comparisons). -/
def strStartsWith : Str → Str → Bool
  | [], _ => true
  | _, [] => false
  | a :: p, b :: s => a = b && strStartsWith p s

/-- strings.Contains. -/
def strContains (s sub : Str) : Bool :=
  (List.range (s.length + 1)).any (fun i => strStartsWith sub (s.drop i))

/-- strings.Index as an Option. -/
def strIndexOf (s sub : Str) : Option Nat :=
  (List.range (s.length + 1)).find? (fun i => strStartsWith sub (s.drop i))

/-- strings.Replace with count one. -/
def replaceFirst (s old new : Str) : Str :=
  if old = [] then new ++ s
  else
    match strIndexOf s old with
    | some i => strSlice s 0 i ++ new ++ s.drop (i + old.length)
    | none => s

/-- strings.TrimSuffix. -/
def goTrimSuffix (s suffix : Str) : Str :=
  if suffix.length ≤ s.length && s.drop (s.length - suffix.length) = suffix then
    s.take (s.length - suffix.length)
  else s

/-- strings.Split with a one-character separator. -/
def splitOnCharAux (sep : Char) : Str → Str → List Str
  | [], acc => [acc]
  | c :: rest, acc => if c = sep then acc :: splitOnCharAux sep rest [] else splitOnCharAux sep rest (acc ++ [c])

def splitOnChar (sep : Char) (s : Str) : List Str := splitOnCharAux sep s []

/-- strings.Fields: split around runs of whitespace. -/
def goFieldsAux : Str → Str → List Str
  | [], acc => if acc.isEmpty then [] else [acc]
  | c :: rest, acc =>
      if goIsSpace c then (if acc.isEmpty then goFieldsAux rest [] else acc :: goFieldsAux rest [])
      else goFieldsAux rest (acc ++ [c])

def goFields (s : Str) : List Str := goFieldsAux s []

/-- strings.LastIndex for the closing brace searched by insertMethods. -/
def lastIndexBrace (s : Str) : Option Nat :=
  (s.reverse.findIdx? (fun c => c = '}')).map (fun i => s.length - 1 - i)

/-- The decimal rendering of a Nat, as a character list. -/
def natToStr (n : Nat) : Str := (Nat.repr n).data

/-- path/filepath Dir, for the slash-separated relative paths this
pipeline produces: the path up to the last separator, or dot without one. -/
def filepathDir (p : Str) : Str :=
  match p.reverse.findIdx? (fun c => c = '/') with
  | none => ".".data
  | some i =>
      let cut := p.length - 1 - i
      if cut = 0 then "/".data else p.take cut

/-- path/filepath Join of a clean directory and a file name. -/
def filepathJoin (dir name : Str) : Str :=
  if dir = ".".data then name
  else if dir = [] then name
  else dir ++ "/".data ++ name

/-- The nil output path resolver of NewTranspiler: co-located cls files. -/
def defaultOutputPath (sourcePath : Str) : Str :=
  goTrimSuffix sourcePath ".peak".data ++ ".cls".data

/-- The descending-length key order of replaceGenericUsages
(sort.Slice with a length comparator; ties are immaterial because equal
length distinct keys never match at the same position). -/
def insertByLen (k : Str) : List Str → List Str
  | [] => [k]
  | x :: rest => if x.length < k.length then k :: x :: rest else x :: insertByLen k rest

def sortByLenDesc (keys : List Str) : List Str := keys.foldr insertByLen []

/- ### The transpiler (pkg/transpiler) -/

/-- isIdentifierChar from the transpiler: an ASCII Apex identifier
character. -/
def isIdentifierChar (r : Char) : Bool :=
  ('a' ≤ r && r ≤ 'z') || ('A' ≤ r && r ≤ 'Z') || ('0' ≤ r && r ≤ '9') || r = '_'

/-- The per-position test of replaceTypeParameter: the parameter occurs at
i and neither the preceding nor the following character is an identifier
character. -/
def freeAt (s param : Str) (i : Nat) : Bool :=
  (i + param.length ≤ s.length && strSlice s i (i + param.length) = param) &&
  (i = 0 || !isIdentifierChar (charAt s (i-1))) &&
  (i + param.length ≥ s.length || !isIdentifierChar (charAt s (i + param.length)))

/-- The scanning loop of replaceTypeParameter. -/
def replaceTypeParameterAux (s param rep : Str) : Nat → Nat → Str
  | 0, _ => []
  | fuel+1, i =>
      if i < s.length then
        if freeAt s param i then rep ++ replaceTypeParameterAux s param rep fuel (i + param.length)
        else charAt s i :: replaceTypeParameterAux s param rep fuel (i + 1)
      else []

/-- replaceTypeParameter from the transpiler: replace every
word-boundary-safe occurrence of param by concreteType, scanning left to
right. -/
def replaceTypeParameter (input param concreteType : Str) : Str :=
  replaceTypeParameterAux input param concreteType (input.length + 1) 0

/-- An error attached to a FileResult: a positioned parse error or a
configuration error (Go: the error interface; configuration messages are
abbreviated here without their interpolated quote punctuation). -/
inductive TranspileError where
  | parse (e : ParseError)
  | config (msg : String)
deriving DecidableEq, Repr

/-- FileResult from the transpiler. -/
structure FileResult where
  originalPath : Str
  outputPath : Str
  content : Str
  isTemplate : Bool
  error : Option TranspileError
deriving DecidableEq, Repr

/-- config.InstantiateSpec: forced class and method instantiations. -/
structure InstantiateSpec where
  classes : List (Str × List Str)
  methods : List (Str × List Str)
deriving DecidableEq, Repr

/-- The Transpiler state.  The output path resolver is modelled as the
default co-located resolver installed by NewTranspiler(nil), which never
fails. -/
structure Transpiler where
  templates : List (Str × GenericClassDef)
  templatePaths : List (Str × Str)
  methodTemplates : List (Str × GenericMethodDef)
  usages : GMap
  instantiations : List Str
  instantiateSpec : Option InstantiateSpec
  methodUsages : List (Str × List Str)

/-- NewTranspiler(nil): all tables empty. -/
def NewTranspiler : Transpiler := ⟨[], [], [], [], [], none, []⟩

/-- The copy-a-line-comment scan of replaceGenericUsages. -/
def scanToNewline (s : Str) : Nat → Nat → Nat
  | 0, i => i
  | fuel+1, i => if i < s.length && charAt s i ≠ '\n' then scanToNewline s fuel (i+1) else i

def lineCommentEnd (s : Str) (i : Nat) : Nat :=
  let j := scanToNewline s (s.length + 1) i
  if j < s.length then j + 1 else j

/-- The replace-while-skipping-comments loop of replaceGenericUsages. -/
def rguLoop (content : Str) (replacements : List (Str × Str)) (sortedKeys : List Str) :
    Nat → Nat → Str
  | 0, _ => []
  | fuel+1, i =>
      if i < content.length then
        if i < content.length - 1 && charAt content i = '/' && charAt content (i+1) = '/' then
          let j := lineCommentEnd content i
          strSlice content i j ++ rguLoop content replacements sortedKeys fuel j
        else if i < content.length - 1 && charAt content i = '/' && charAt content (i+1) = '*' then
          let j := skipBlockRest content (content.length + 1) (i + 2)
          strSlice content i j ++ rguLoop content replacements sortedKeys fuel j
        else
          match sortedKeys.find? (fun k =>
              i + k.length ≤ content.length && strSlice content i (i + k.length) = k) with
          | some k =>
              (mapLookup replacements k).getD [] ++
                rguLoop content replacements sortedKeys fuel (i + k.length)
          | none => charAt content i :: rguLoop content replacements sortedKeys fuel (i + 1)
      else []

/-- replaceGenericUsages from the transpiler (the comment-preserving
variant): replace every known-template usage with its concrete class
name, trying longer keys first, leaving comment text untouched. -/
def replaceGenericUsages (t : Transpiler) (content : Str) (generics : GMap) : Str :=
  let replacements := generics.foldl
    (fun acc (p : Str × GenericExpr) =>
      if (mapLookup t.templates p.2.baseType).isSome then
        mapInsert acc p.1 (GenerateConcreteClassName p.2)
      else acc) []
  if replacements.length = 0 then content
  else
    let sortedKeys := sortByLenDesc (replacements.map (fun p => p.1))
    rguLoop content replacements sortedKeys (content.length + 1) 0

/-- instantiateTemplate from the transpiler: the three-pass substitution.
Pass one replaces each type parameter by the canonical rendering of its
argument; pass two rewrites nested template usages to concrete names;
pass three drops the declaration bracket and renames the class.  Pass one
iterates the substitution map in parameter-declaration order; the Go map
order is unspecified, which matters only when one replacement string
contains another bare parameter letter, a situation that does not arise
in the runs below. -/
def instantiateTemplate (t : Transpiler) (template : GenericClassDef)
    (instantiation : GenericExpr) : Str :=
  if template.typeParams.length ≠ instantiation.typeArgs.length then
    "// ERROR: Type parameter mismatch for ".data ++ template.className ++
      " (expected ".data ++ natToStr template.typeParams.length ++
      ", got ".data ++ natToStr instantiation.typeArgs.length ++ ")".data
  else
    let substitutions := template.typeParams.zip (instantiation.typeArgs.map GenericExpr.render)
    let output := substitutions.foldl
      (fun o (pc : Str × Str) => replaceTypeParameter o pc.1 pc.2) template.body
    let generics := FindGenerics output
    let output := replaceGenericUsages t output generics
    let concreteName := GenerateConcreteClassName instantiation
    let output := replaceFirst output
      ('<' :: List.intercalate ", ".data template.typeParams ++ ">".data) []
    let output := replaceTypeParameter output template.className concreteName
    "public class ".data ++ concreteName ++ " ".data ++ output

/-- instantiateMethod from the transpiler. -/
def instantiateMethod (methodDef : GenericMethodDef) (typeArgs : List Str) : Str :=
  if methodDef.typeParams.length ≠ typeArgs.length then
    "// ERROR: Type parameter mismatch for ".data ++ methodDef.methodName ++
      " (expected ".data ++ natToStr methodDef.typeParams.length ++
      ", got ".data ++ natToStr typeArgs.length ++ ")".data
  else
    let substitutions := methodDef.typeParams.zip typeArgs
    let concreteMethodName := GenerateConcreteMethodName methodDef.methodName typeArgs
    let typeParamDecl := '<' :: List.intercalate ", ".data methodDef.typeParams ++ ">".data
    let signature := replaceFirst methodDef.signature typeParamDecl []
    let signature := substitutions.foldl
      (fun sg (pc : Str × Str) => replaceTypeParameter sg pc.1 pc.2) signature
    let signature := replaceTypeParameter signature methodDef.methodName concreteMethodName
    let body := substitutions.foldl
      (fun b (pc : Str × Str) => replaceTypeParameter b pc.1 pc.2) methodDef.body
    signature ++ " ".data ++ body

/-- insertMethods from the transpiler: splice generated methods, indented,
before the last closing brace. -/
def insertMethods (content : Str) (methods : List Str) : Str :=
  match lastIndexBrace content with
  | none => content
  | some lastBraceIdx =>
      let block := "\n    // Generated concrete methods\n".data ++
        (methods.map (fun method =>
          ((splitOnChar '\n' method).map (fun line =>
            if line ≠ [] then "    ".data ++ line ++ "\n".data else [])).flatten
          ++ "\n".data)).flatten
      strSlice content 0 lastBraceIdx ++ block ++ content.drop lastBraceIdx

/-- The strip at the first angle or brace in extractClassName. -/
def stripAfterAny (w : Str) : Str :=
  match w.findIdx? (fun c => c = '<' || c = '{') with
  | some idx => w.take idx
  | none => w

/-- The per-line word walk of extractClassName. -/
def classNameFromWords : List Str → Option Str
  | [] => none
  | w :: rest =>
      if w = "class".data && rest ≠ [] then some (stripAfterAny (rest.headD []))
      else classNameFromWords rest

def classNameFromLines : List Str → Str
  | [] => []
  | line :: rest =>
      match classNameFromWords (goFields (trimSpace line)) with
      | some name => name
      | none => classNameFromLines rest

/-- extractClassName from the transpiler: the word after the first
standalone class keyword, stripped at an angle bracket or brace. -/
def extractClassName (content : Str) : Str := classNameFromLines (splitOnChar '\n' content)

/- ### The directory pipeline (Transpiler.TranspileFiles and its phases) -/

/-- The per-file body of the phase 1 loop. -/
def collectTemplatesStep (acc : Transpiler × List FileResult × Bool) (file : Str × Str) :
    Transpiler × List FileResult × Bool :=
  let (t, results, hasErrors) := acc
  match FindGenericClassDefinitions file.2 with
  | .error e => (t, results ++ [⟨file.1, [], [], false, some (.parse e)⟩], true)
  | .ok defs =>
      let t := defs.foldl
        (fun t (d : Str × GenericClassDef) =>
          { t with templates := mapInsert t.templates d.1 d.2,
                   templatePaths := mapInsert t.templatePaths d.1 file.1 }) t
      (t, results, hasErrors)

/-- collectTemplates (phase 1): scan every file for generic class
definitions; a scan error yields a per-file error result and sets the
error flag, other files are still processed. -/
def collectTemplates (t : Transpiler) (files : List (Str × Str)) (results : List FileResult) :
    Transpiler × List FileResult × Bool :=
  files.foldl collectTemplatesStep (t, results, false)

/-- The per-file body of the phase 1.1 loop. -/
def collectMethodTemplatesStep (acc : Transpiler × List FileResult × Bool) (file : Str × Str) :
    Transpiler × List FileResult × Bool :=
  let (t, results, hasErrors) := acc
  match FindGenericClassDefinitions file.2 with
  | .error _ => (t, results, hasErrors)
  | .ok classDefs =>
      let t := classDefs.foldl
        (fun t (cd : Str × GenericClassDef) =>
          (FindGenericMethodDefinitions file.2 cd.1).foldl
            (fun t m => { t with methodTemplates := mapInsert t.methodTemplates m.1 m.2 }) t)
        t
      let className := extractClassName file.2
      let t :=
        if className ≠ [] && classDefs.length = 0 then
          (FindGenericMethodDefinitions file.2 className).foldl
            (fun t m => { t with methodTemplates := mapInsert t.methodTemplates m.1 m.2 }) t
        else t
      (t, results, hasErrors)

/-- collectMethodTemplates (phase 1.1).  In the source the method scan
returns an error value that is always nil, so this phase can record no
error; the flag is kept for the pipeline wiring. -/
def collectMethodTemplates (t : Transpiler) (files : List (Str × Str))
    (results : List FileResult) : Transpiler × List FileResult × Bool :=
  files.foldl collectMethodTemplatesStep (t, results, false)

/-- parseInstantiation: parse a forced instantiation string into the one
generic expression it must contain. -/
def parseInstantiation (instantiation : Str) : Except String GenericExpr :=
  let generics := FindGenerics instantiation
  if generics.length = 0 then .error "no generic expression found"
  else if generics.length > 1 then .error "multiple generic expressions found, expected one"
  else
    match generics with
    | (_, expr) :: _ => .ok expr
    | [] => .error "unexpected error parsing instantiation"

/-- The per-entry body of the phase 1.5 loop. -/
def processInstantiationsStep (acc : Transpiler × List FileResult × Bool) (inst : Str) :
    Transpiler × List FileResult × Bool :=
  let (t, results, hasErrors) := acc
  match parseInstantiation inst with
  | .error msg =>
      (t, results ++ [⟨"peakconfig.json".data, [], [], false,
        some (.config ("invalid instantiation: " ++ msg))⟩], true)
  | .ok expr =>
      if (mapLookup t.templates expr.baseType).isNone then
        (t, results ++ [⟨"peakconfig.json".data, [], [], false,
          some (.config "instantiation references undefined template")⟩], true)
      else ({ t with usages := mapInsert t.usages inst expr }, results, hasErrors)

/-- processInstantiations (phase 1.5): validate forced class
instantiations from configuration; unknown templates and unparsable
entries are configuration errors, valid ones join the usage table. -/
def processInstantiations (t : Transpiler) (results : List FileResult) :
    Transpiler × List FileResult × Bool :=
  if t.instantiations.length = 0 then (t, results, false)
  else t.instantiations.foldl processInstantiationsStep (t, results, false)

/-- The per-entry body of the phase 1.6 loop. -/
def processMethodInstantiationsStep (acc : Transpiler × List FileResult × Bool)
    (mk : Str × List Str) : Transpiler × List FileResult × Bool :=
  let (t, results, hasErrors) := acc
  if (mapLookup t.methodTemplates mk.1).isNone then
    (t, results ++ [⟨"peakconfig.json".data, [], [], false,
      some (.config "method instantiation references undefined generic method")⟩], true)
  else
    let mu := mapInsert t.methodUsages mk.1 ((mapLookup t.methodUsages mk.1).getD [] ++ mk.2)
    ({ t with methodUsages := mu }, results, hasErrors)

/-- processMethodInstantiations (phase 1.6): validate forced method
instantiations; unknown methods are configuration errors. -/
def processMethodInstantiations (t : Transpiler) (results : List FileResult) :
    Transpiler × List FileResult × Bool :=
  match t.instantiateSpec with
  | none => (t, results, false)
  | some spec =>
      if spec.methods.length = 0 then (t, results, false)
      else spec.methods.foldl processMethodInstantiationsStep (t, results, false)

/-- getContentToScan: template files are scanned for usages through the
concatenation of their class bodies only, never the declaration lines;
other files are scanned whole. -/
def getContentToScan (content : Str) : Str :=
  match FindGenericClassDefinitions content with
  | .error _ => content
  | .ok defs =>
      if defs.length > 0 then List.intercalate "\n".data (defs.map (fun d => d.2.body))
      else content

/-- recordError: update the first existing error entry of the file or
append a new one.  (Reachable in the source only from a scan whose error
value is always nil.) -/
def replaceFirstError (path : Str) (e : TranspileError) :
    List FileResult → Option (List FileResult)
  | [] => none
  | r :: rest =>
      if r.originalPath = path && r.error.isSome then some ({ r with error := some e } :: rest)
      else (replaceFirstError path e rest).map (fun rs => r :: rs)

def recordError (path : Str) (e : TranspileError) (results : List FileResult) :
    List FileResult :=
  match replaceFirstError path e results with
  | some results => results
  | none => results ++ [⟨path, [], [], false, some e⟩]

/-- The per-file body of the phase 2 loop. -/
def collectUsagesStep (acc : Transpiler × List FileResult × Bool) (file : Str × Str) :
    Transpiler × List FileResult × Bool :=
  let (t, results, hasErrors) := acc
  let generics := FindGenerics (getContentToScan file.2)
  let t := generics.foldl
    (fun t (g : Str × GenericExpr) =>
      if (mapLookup t.templates g.2.baseType).isSome then
        { t with usages := mapInsert t.usages g.1 g.2 }
      else t) t
  (t, results, hasErrors)

/-- collectUsages (phase 2): record every scanned usage whose base type
names a known template.  The usage scan returns an error value that is
always nil in the source, so this phase can record no error. -/
def collectUsages (t : Transpiler) (files : List (Str × Str)) (results : List FileResult) :
    Transpiler × List FileResult × Bool :=
  files.foldl collectUsagesStep (t, results, false)

/-- transpileFile (phase 3, per file): template files produce no output;
other files get their usages rewritten to concrete names and any forced
concrete methods of their class spliced in. -/
def transpileFile (t : Transpiler) (path content : Str) : FileResult :=
  match FindGenericClassDefinitions content with
  | .error e => ⟨path, [], [], false, some (.parse e)⟩
  | .ok defs =>
      if defs.length > 0 then ⟨path, [], [], true, none⟩
      else
        let generics := FindGenerics content
        let output := replaceGenericUsages t content generics
        let className := extractClassName output
        let output :=
          if className ≠ [] && t.methodUsages.length > 0 then
            let concreteMethods := (t.methodUsages.map
              (fun (mu : Str × List Str) =>
                let parts := splitOnChar '.' mu.1
                if parts.length = 2 && parts.headD [] = className then
                  match mapLookup t.methodTemplates mu.1 with
                  | none => []
                  | some methodTemplate =>
                      mu.2.map (fun typeArg =>
                        instantiateMethod methodTemplate
                          ((splitOnChar ',' typeArg).map trimSpace))
                else [])).flatten
            if concreteMethods.length > 0 then insertMethods output concreteMethods else output
          else output
        ⟨path, defaultOutputPath path, output, false, none⟩

/-- generateConcreteClasses (phase 4): one concrete class file per
recorded usage of a known template, placed beside the template source. -/
def generateConcreteClasses (t : Transpiler) : List FileResult :=
  (t.usages.map
    (fun (u : Str × GenericExpr) =>
      match mapLookup t.templates u.2.baseType with
      | none => []
      | some template =>
          let templatePath := (mapLookup t.templatePaths u.2.baseType).getD []
          let content := instantiateTemplate t template u.2
          let concreteName := GenerateConcreteClassName u.2
          let virtualPath := filepathJoin (filepathDir templatePath) (concreteName ++ ".peak".data)
          [⟨[], defaultOutputPath virtualPath, content, false, none⟩])).flatten

/-- The discovery prefix of TranspileFiles: phases 1, 1.1, 1.5, 1.6 and 2,
with the accumulated per-file results and the combined error flag. -/
structure DiscoverOut where
  transpiler : Transpiler
  results : List FileResult
  hasErrors : Bool

def discoverPhases (t : Transpiler) (files : List (Str × Str)) : DiscoverOut :=
  let r1 := collectTemplates t files []
  let r2 := collectMethodTemplates r1.1 files r1.2.1
  let r3 := processInstantiations r2.1 r2.2.1
  let r4 := processMethodInstantiations r3.1 r3.2.1
  let r5 := collectUsages r4.1 files r4.2.1
  ⟨r5.1, r5.2.1, r1.2.2 || r2.2.2 || r3.2.2 || r4.2.2 || r5.2.2⟩

/-- Transpiler.TranspileFiles: run discovery; if any error was recorded,
return the accumulated error results with all output generation skipped;
otherwise run phases 3 and 4 and append their outputs. -/
def TranspileFiles (t : Transpiler) (files : List (Str × Str)) : List FileResult :=
  let d := discoverPhases t files
  if d.hasErrors then d.results
  else
    d.results ++ files.map (fun f => transpileFile d.transpiler f.1 f.2)
      ++ generateConcreteClasses d.transpiler

mutual
/-- A decision procedure for structural equality of GenericExpr trees
(the derive handler does not support this nested inductive). -/
def GenericExpr.decEq : (a b : GenericExpr) → Decidable (a = b)
  | .mk b1 a1 s1, .mk b2 a2 s2 =>
      match List.hasDecEq b1 b2 with
      | isFalse h => isFalse (by intro he; cases he; exact h rfl)
      | isTrue hb =>
        match Bool.decEq s1 s2 with
        | isFalse h => isFalse (by intro he; cases he; exact h rfl)
        | isTrue hs =>
          match GenericExpr.decEqList a1 a2 with
          | isFalse h => isFalse (by intro he; cases he; exact h rfl)
          | isTrue ha => isTrue (by rw [hb, hs, ha])

/-- GenericExpr.decEq lifted to argument lists. -/
def GenericExpr.decEqList : (a b : List GenericExpr) → Decidable (a = b)
  | [], [] => isTrue rfl
  | [], _ :: _ => isFalse (by simp)
  | _ :: _, [] => isFalse (by simp)
  | x :: xs, y :: ys =>
      match GenericExpr.decEq x y with
      | isFalse h => isFalse (by intro he; cases he; exact h rfl)
      | isTrue hx =>
        match GenericExpr.decEqList xs ys with
        | isFalse h => isFalse (by intro he; cases he; exact h rfl)
        | isTrue hxs => isTrue (by rw [hx, hxs])
end

instance : DecidableEq GenericExpr := GenericExpr.decEq

/- ### Shared concrete material for the claim theorems -/

/-- The simple expression Integer. -/
def exInteger : GenericExpr := .mk "Integer".data [] true

/-- The simple expression String. -/
def exString : GenericExpr := .mk "String".data [] true

/-- The expression List of Integer. -/
def exListInteger : GenericExpr := .mk "List".data [exInteger] false

/-- The expression Queue of Integer. -/
def exQueueInteger : GenericExpr := .mk "Queue".data [exInteger] false

/-- The expression Dict of String and Integer. -/
def exDictStringInteger : GenericExpr := .mk "Dict".data [exString, exInteger] false

/-- The expression Queue of List of Integer. -/
def exQueueListInteger : GenericExpr := .mk "Queue".data [exListInteger] false

/-- The expression Dict of String and Queue of Integer. -/
def exDictStringQueueInteger : GenericExpr := .mk "Dict".data [exString, exQueueInteger] false

/-- The expression Queue of String and Integer (an arity-mismatching
instantiation of the one-parameter Queue template). -/
def exQueueStringInteger : GenericExpr := .mk "Queue".data [exString, exInteger] false

/-- A one-parameter Queue template whose body stores a built-in list of
the parameter type. -/
def queueTemplate : GenericClassDef :=
  ⟨"Queue".data, ["T".data], [], "\x7b List<T> items; \x7d".data, 0, 0⟩

/-- A transpiler state that knows only the Queue template. -/
def queueTranspiler : Transpiler :=
  ⟨[("Queue".data, queueTemplate)], [("Queue".data, "Queue.peak".data)], [], [], [], none, []⟩

/-- The transitivity scenario of C2: Queue and Dict templates where the
Dict body uses Queue applied to the first Dict parameter, and a usage
site Dict of String and Integer. -/
def transitivityFiles : List (Str × Str) :=
  [("Queue.peak".data, "class Queue<T> \x7b List<T> items; \x7d".data),
   ("Dict.peak".data, "class Dict<K, V> \x7b Queue<K> q; \x7d".data),
   ("Main.peak".data, "class Main \x7b Dict<String, Integer> d; \x7d".data)]

/-- The nested-inside-built-in scenario of C9: a Queue template and a file
whose only Queue usage sits inside a built-in List expression. -/
def nestedBuiltinFiles : List (Str × Str) :=
  [("Queue.peak".data, "class Queue<T> \x7b List<T> items; \x7d".data),
   ("Main.peak".data, "class Main \x7b List<Queue<Integer>> x; \x7d".data)]

/-- The template file of the C8 scenario: the declaration mentions Queue
of T while the body holds a genuine usage Queue of Boolean. -/
def bodyUsageFiles : List (Str × Str) :=
  [("Queue.peak".data, "class Queue<T> \x7b Queue<Boolean> q; \x7d".data)]

/-- A discovery-phase error entry: an error is attached and no output
content, output path or template flag is set. -/
def isErrorMarker (r : FileResult) : Prop :=
  r.error.isSome = true ∧ r.content = [] ∧ r.outputPath = [] ∧ r.isTemplate = false

/-- The malformed input of the C3 witness. -/
def badAngleFiles : List (Str × Str) :=
  [("Bad.peak".data, "public class Bad<<T>> \x7b\x7d".data)]

/- ### C5: word-boundary characterization of replaceTypeParameter -/

/-- Modelled from the spec (word-boundary invariant): the positions whose
occurrence of the parameter has no identifier character on either side,
each position judged independently. -/
def freeOccurrences (s param : Str) : List Nat :=
  (List.range s.length).filter (fun i => freeAt s param i)

/-- Modelled from the spec: the text obtained by replacing exactly the
occurrences at the listed positions, copying everything else. -/
def spliceAt (s rep : Str) (plen : Nat) : Nat → List Nat → Str
  | i, [] => s.drop i
  | i, p :: ps => strSlice s i p ++ rep ++ spliceAt s rep plen (p + plen) ps

/-- The boundary-free occurrence positions at or beyond i. -/
def freeSuffix (s param : Str) (i : Nat) : List Nat :=
  (List.range' i (s.length - i)).filter (fun p => freeAt s param p)

/- ### Theorems settling the claims -/

mutual
/-- On trees satisfying the data-model invariant, the source mangling
agrees with the spec-side mangling description. -/
theorem mangle_eq_mangleSpec :
    ∀ e : GenericExpr, e.wfB = true → GenerateConcreteClassName e = mangleSpec e
  | .mk b args s, h => by
      unfold GenericExpr.wfB at h
      simp only [Bool.and_eq_true] at h
      simp only [GenerateConcreteClassName, mangleSpec]
      rw [concreteNameArgs_eq_mangleSpecArgs args h.2]

/-- Argument-list form of mangle_eq_mangleSpec. -/
theorem concreteNameArgs_eq_mangleSpecArgs :
    ∀ l : List GenericExpr, wfListB l = true → concreteNameArgs l = mangleSpecArgs l
  | [], _ => rfl
  | a :: rest, h => by
      unfold wfListB at h
      simp only [Bool.and_eq_true] at h
      obtain ⟨ha, hrest⟩ := h
      simp only [concreteNameArgs, mangleSpecArgs]
      rw [concreteNameArgs_eq_mangleSpecArgs rest hrest]
      congr 1
      by_cases hs : a.isSimple = true
      · obtain ⟨b, args, s⟩ := a
        simp only [GenericExpr.isSimple] at hs
        subst hs
        unfold GenericExpr.wfB at ha
        simp only [Bool.and_eq_true, beq_iff_eq] at ha
        have hargs : args = [] := by
          cases args with
          | nil => rfl
          | cons x xs => simp at ha
        subst hargs
        simp [GenericExpr.isSimple, GenericExpr.baseType, mangleSpec, mangleSpecArgs]
      · rw [if_neg hs]
        exact mangle_eq_mangleSpec a ha
end

/-- C6: GenerateConcreteClassName maps a simple expression to its base
name and a compound expression to the base name followed by the
recursively mangled argument names with no separator; it is deterministic
under structural equality; on the canonical corpus it produces
QueueInteger, DictStringInteger, QueueListInteger and
DictStringQueueInteger, and distinct corpus trees receive distinct names. -/
theorem C6_mangling :
    (∀ e₁ e₂ : GenericExpr, e₁ = e₂ →
        GenerateConcreteClassName e₁ = GenerateConcreteClassName e₂)
    ∧ (∀ e : GenericExpr, e.wfB = true → GenerateConcreteClassName e = mangleSpec e)
    ∧ GenerateConcreteClassName exQueueInteger = "QueueInteger".data
    ∧ GenerateConcreteClassName exDictStringInteger = "DictStringInteger".data
    ∧ GenerateConcreteClassName exQueueListInteger = "QueueListInteger".data
    ∧ GenerateConcreteClassName exDictStringQueueInteger = "DictStringQueueInteger".data
    ∧ ((GenerateConcreteClassName exQueueInteger ≠ GenerateConcreteClassName exDictStringInteger)
      ∧ (GenerateConcreteClassName exQueueInteger ≠ GenerateConcreteClassName exQueueListInteger)
      ∧ (GenerateConcreteClassName exQueueInteger ≠ GenerateConcreteClassName exDictStringQueueInteger)
      ∧ (GenerateConcreteClassName exDictStringInteger ≠ GenerateConcreteClassName exQueueListInteger)
      ∧ (GenerateConcreteClassName exDictStringInteger ≠ GenerateConcreteClassName exDictStringQueueInteger)
      ∧ (GenerateConcreteClassName exQueueListInteger ≠ GenerateConcreteClassName exDictStringQueueInteger))
    ∧ ((exQueueInteger ≠ exDictStringInteger)
      ∧ (exQueueInteger ≠ exQueueListInteger)
      ∧ (exQueueInteger ≠ exDictStringQueueInteger)
      ∧ (exDictStringInteger ≠ exQueueListInteger)
      ∧ (exDictStringInteger ≠ exDictStringQueueInteger)
      ∧ (exQueueListInteger ≠ exDictStringQueueInteger)) := by
  refine ⟨fun e₁ e₂ h => congrArg _ h, mangle_eq_mangleSpec, by decide, by decide, by decide,
    by decide, ⟨by decide, by decide, by decide, by decide, by decide, by decide⟩, ?_⟩
  refine ⟨?_, ?_, ?_, ?_, ?_, ?_⟩ <;>
    exact fun h => absurd (congrArg GenerateConcreteClassName h) (by decide)

/-- C6 witness: the general conjunct applied to a corpus tree. -/
theorem C6_mangling_witness :
    exQueueListInteger.wfB = true ∧
      GenerateConcreteClassName exQueueListInteger = mangleSpec exQueueListInteger :=
  ⟨by decide, C6_mangling.2.1 exQueueListInteger (by decide)⟩

/-- C10: the method-level type-parameter list accepts the duplicate list
of K and K, enforcing only the single-letter rule, while the class-level
type-parameter list rejects the same duplicate list with a positioned
error; the accepting path flows into FindGenericMethodDefinitions. -/
theorem C10_method_duplicates_accepted :
    parseTypeParameterList "<K, K> void f()".data 1 = .ok (["K".data, "K".data], 6)
    ∧ parseTypeParameters "<K, K>".data 0 = .error ⟨"duplicate type parameter", 4⟩
    ∧ (FindGenericMethodDefinitions
        "class C \x7b public <K, K> Map<K, K> f(Integer x) \x7b return null; \x7d \x7d".data
        "C".data).map (fun p => (p.1, p.2.typeParams)) =
        [("C.f".data, ["K".data, "K".data])] := by
  refine ⟨by decide, by decide, by decide⟩

/-- C1: with matching arity, pass one of instantiateTemplate substitutes
each type parameter by the canonical rendering of its argument expression
(GenericExpr render, the source String method), never the mangled name;
instantiating the Queue template, whose body contains a List of the
parameter, at Queue of List of Integer therefore yields a body containing
List of List of Integer and never List of ListInteger. -/
theorem C1_pass1_canonical_rendering :
    (∀ (t : Transpiler) (template : GenericClassDef) (inst : GenericExpr),
      template.typeParams.length = inst.typeArgs.length →
      instantiateTemplate t template inst =
        (let substitutions := template.typeParams.zip (inst.typeArgs.map GenericExpr.render)
         let output := substitutions.foldl
           (fun o (pc : Str × Str) => replaceTypeParameter o pc.1 pc.2) template.body
         let generics := FindGenerics output
         let output := replaceGenericUsages t output generics
         let concreteName := GenerateConcreteClassName inst
         let output := replaceFirst output
           ('<' :: List.intercalate ", ".data template.typeParams ++ ">".data) []
         let output := replaceTypeParameter output template.className concreteName
         "public class ".data ++ concreteName ++ " ".data ++ output))
    ∧ instantiateTemplate queueTranspiler queueTemplate exQueueListInteger =
        "public class QueueListInteger \x7b List<List<Integer>> items; \x7d".data
    ∧ strContains (instantiateTemplate queueTranspiler queueTemplate exQueueListInteger)
        "List<List<Integer>>".data = true
    ∧ strContains (instantiateTemplate queueTranspiler queueTemplate exQueueListInteger)
        "List<ListInteger>".data = false := by
  refine ⟨?_, by decide, by decide, by decide⟩
  intro t template inst h
  unfold instantiateTemplate
  rw [if_neg (by simp [h])]

/-- C1 witness: the general conjunct applied to the Queue template at
Queue of List of Integer. -/
theorem C1_pass1_canonical_rendering_witness :
    queueTemplate.typeParams.length = exQueueListInteger.typeArgs.length ∧
      instantiateTemplate queueTranspiler queueTemplate exQueueListInteger =
        (let substitutions :=
            queueTemplate.typeParams.zip (exQueueListInteger.typeArgs.map GenericExpr.render)
         let output := substitutions.foldl
           (fun o (pc : Str × Str) => replaceTypeParameter o pc.1 pc.2) queueTemplate.body
         let generics := FindGenerics output
         let output := replaceGenericUsages queueTranspiler output generics
         let concreteName := GenerateConcreteClassName exQueueListInteger
         let output := replaceFirst output
           ('<' :: List.intercalate ", ".data queueTemplate.typeParams ++ ">".data) []
         let output := replaceTypeParameter output queueTemplate.className concreteName
         "public class ".data ++ concreteName ++ " ".data ++ output) :=
  ⟨by decide, C1_pass1_canonical_rendering.1 queueTranspiler queueTemplate exQueueListInteger
    (by decide)⟩

/-- C4: an instantiation whose type-argument count differs from the
template's parameter count does not abort the run: instantiateTemplate
returns the marked error-comment naming the template and the expected and
actual counts; generateConcreteClasses treats every usage independently,
so all other instantiations of the run are generated unaffected. -/
theorem C4_arity_mismatch_nonfatal :
    (∀ (t : Transpiler) (template : GenericClassDef) (inst : GenericExpr),
      template.typeParams.length ≠ inst.typeArgs.length →
      instantiateTemplate t template inst =
        "// ERROR: Type parameter mismatch for ".data ++ template.className ++
          " (expected ".data ++ natToStr template.typeParams.length ++
          ", got ".data ++ natToStr inst.typeArgs.length ++ ")".data)
    ∧ (∀ (t : Transpiler) (us₁ us₂ : GMap),
      generateConcreteClasses { t with usages := us₁ ++ us₂ } =
        generateConcreteClasses { t with usages := us₁ } ++
          generateConcreteClasses { t with usages := us₂ })
    ∧ generateConcreteClasses
        { queueTranspiler with usages :=
            [("Queue<String, Integer>".data, exQueueStringInteger),
             ("Queue<Integer>".data, exQueueInteger)] } =
        [⟨[], "QueueStringInteger.cls".data,
            "// ERROR: Type parameter mismatch for Queue (expected 1, got 2)".data,
            false, none⟩,
         ⟨[], "QueueInteger.cls".data,
            "public class QueueInteger \x7b List<Integer> items; \x7d".data,
            false, none⟩] := by
  refine ⟨?_, ?_, by decide⟩
  · intro t template inst h
    unfold instantiateTemplate
    rw [if_pos h]
  · intro t us₁ us₂
    simp only [generateConcreteClasses, List.map_append, List.flatten_append]
    congr 1

/-- C4 witness: the arity conjunct applied to the Queue template at the
mismatching Queue of String and Integer. -/
theorem C4_arity_mismatch_nonfatal_witness :
    queueTemplate.typeParams.length ≠ exQueueStringInteger.typeArgs.length ∧
      instantiateTemplate queueTranspiler queueTemplate exQueueStringInteger =
        "// ERROR: Type parameter mismatch for ".data ++ queueTemplate.className ++
          " (expected ".data ++ natToStr queueTemplate.typeParams.length ++
          ", got ".data ++ natToStr exQueueStringInteger.typeArgs.length ++ ")".data :=
  ⟨by decide, C4_arity_mismatch_nonfatal.1 queueTranspiler queueTemplate exQueueStringInteger
    (by decide)⟩



/-- C2, evaluated at its failing input: the run emits DictStringInteger
whose body references QueueString, but no QueueString output exists
anywhere in the results; instead the literal body usage Queue of K is
instantiated as a spurious QueueK class with the type parameter K left
unsubstituted.  This contradicts the claimed (and internally documented)
transitive emission of QueueString. -/
theorem C2_transitive_emission_failing_run :
    ((TranspileFiles NewTranspiler transitivityFiles).any (fun r =>
        r.outputPath = "DictStringInteger.cls".data &&
        strContains r.content "QueueString".data) = true)
    ∧ ((TranspileFiles NewTranspiler transitivityFiles).all (fun r =>
        r.outputPath ≠ "QueueString.cls".data) = true)
    ∧ ((TranspileFiles NewTranspiler transitivityFiles).all (fun r =>
        strStartsWith "public class QueueString ".data r.content = false) = true)
    ∧ ((TranspileFiles NewTranspiler transitivityFiles).any (fun r =>
        r.outputPath = "QueueK.cls".data &&
        r.content = "public class QueueK \x7b List<K> items; \x7d".data) = true) := by
  refine ⟨by decide, by decide, by decide, by decide⟩



/-- C9: when the top-level base name of a parsed usage is on the built-in
denylist, the scan consumes the whole expression without recording it and
without walking its arguments, so a custom-template usage occurring only
nested inside a built-in expression yields no usage and no concrete
class.  The first conjunct shows the scanner result; the middle conjunct
is the scan-loop step fact; the last conjuncts show the pipeline emits
nothing for the nested Queue of Integer. -/
theorem C9_nested_inside_builtin_dropped :
    FindGenerics "List<Queue<Integer>> x;".data = []
    ∧ (∀ (s : Str) (fuel pos : Nat) (m : GMap) (p0 p1 p2 posEnd : Nat) (ident : Str)
        (expr : GenericExpr),
        skipWsComments s pos = p0 →
        p0 < s.length →
        (goIsLetter (charAt s p0) || charAt s p0 = '_') = true →
        parseIdentifier s p0 = (ident, p1) →
        skipWhitespace s p1 = p2 →
        charAt s p2 = '<' →
        charAt s (p2+1) ≠ '=' →
        goIsSpace (charAt s (p2+1)) = false →
        ParseGeneric s (4 * s.length + 4) ident p2 = .ok (expr, posEnd) →
        isBuiltInGeneric expr.baseType = true →
        findGenericsLoop s (fuel+1) pos m = findGenericsLoop s fuel posEnd m)
    ∧ (discoverPhases NewTranspiler nestedBuiltinFiles).transpiler.usages = []
    ∧ ((TranspileFiles NewTranspiler nestedBuiltinFiles).all (fun r =>
        r.outputPath ≠ "QueueInteger.cls".data) = true)
    ∧ ((TranspileFiles NewTranspiler nestedBuiltinFiles).all (fun r =>
        strContains r.content "QueueInteger".data = false) = true) := by
  refine ⟨by decide, ?_, by decide, by decide, by decide⟩
  intro s fuel pos m p0 p1 p2 posEnd ident expr h0 hlt hletter hid hsw hlt2 hne hnsp hpg hbi
  have hge : ¬ p0 ≥ s.length := by omega
  conv_lhs => rw [findGenericsLoop]
  rw [h0]
  simp only [hge, if_false, hletter, Bool.not_true, Bool.false_eq_true, if_false, hid, hsw,
    hlt2, if_true, hne, hnsp, hpg, hbi]
  simp
  exact fun hx => absurd hx hne

/-- C9 witness: the scan-loop conjunct applied to the first iteration of
the scan of the nested-inside-built-in input. -/
theorem C9_nested_inside_builtin_dropped_witness :
    findGenericsLoop "List<Queue<Integer>> x;".data 41 0 [] =
      findGenericsLoop "List<Queue<Integer>> x;".data 40 20 [] :=
  C9_nested_inside_builtin_dropped.2.1 "List<Queue<Integer>> x;".data 40 0 [] 0 4 4 20
    "List".data (.mk "List".data [.mk "Queue".data [.mk "Integer".data [] true] false] false)
    (by decide) (by decide) (by decide) (by decide) (by decide) (by decide) (by decide)
    (by decide) (by decide) (by decide)

/-- C7: during usage discovery a bracket immediately following an
identifier starts a generic expression only if the next character is
neither the equals sign nor whitespace; a failing speculative parse
restores the cursor to just past the rejected bracket and resumes there;
consequently the two comparison inputs yield zero usages, and free text
after a failed bracket does not corrupt later scanning. -/
theorem C7_comparison_disambiguation :
    FindGenerics "if (x < 5)".data = []
    ∧ FindGenerics "if (x <= 5)".data = []
    ∧ FindGenerics "A<+ B<C>".data = [("B<C>".data, .mk "B".data [.mk "C".data [] true] false)]
    ∧ (∀ (s : Str) (fuel pos : Nat) (m : GMap) (p0 p1 p2 : Nat) (ident : Str),
        skipWsComments s pos = p0 →
        p0 < s.length →
        (goIsLetter (charAt s p0) || charAt s p0 = '_') = true →
        parseIdentifier s p0 = (ident, p1) →
        skipWhitespace s p1 = p2 →
        charAt s p2 = '<' →
        ((charAt s (p2+1) = '=' ∨ goIsSpace (charAt s (p2+1)) = true) →
          findGenericsLoop s (fuel+1) pos m = findGenericsLoop s fuel p2 m)
        ∧ (∀ e : ParseError, charAt s (p2+1) ≠ '=' →
            goIsSpace (charAt s (p2+1)) = false →
            ParseGeneric s (4 * s.length + 4) ident p2 = .error e →
            findGenericsLoop s (fuel+1) pos m = findGenericsLoop s fuel (p2+1) m)) := by
  refine ⟨by decide, by decide, by decide, ?_⟩
  intro s fuel pos m p0 p1 p2 ident h0 hlt hletter hid hsw hlt2
  have hge : ¬ p0 ≥ s.length := by omega
  constructor
  · intro hguard
    conv_lhs => rw [findGenericsLoop]
    rw [h0]
    simp only [hge, if_false, hletter, Bool.not_true, Bool.false_eq_true, if_false, hid, hsw,
      hlt2, if_true]
    rcases hguard with h | h
    · simp [h]
    · simp [h]
  · intro e hne hnsp hpg
    conv_lhs => rw [findGenericsLoop]
    rw [h0]
    simp only [hge, if_false, hletter, Bool.not_true, Bool.false_eq_true, if_false, hid, hsw,
      hlt2, if_true, hne, hnsp, hpg]
    simp
    exact fun hx => absurd hx hne

/-- C7 witness: the guard conjunct applied to the iteration of the scan
of the spaced comparison that sits on the identifier x, and the rollback
conjunct applied to the first iteration of the scan of the free-text
input. -/
theorem C7_comparison_disambiguation_witness :
    (findGenericsLoop "if (x <= 5)".data 12 4 [] = findGenericsLoop "if (x <= 5)".data 11 6 [])
    ∧ (findGenericsLoop "A<+ B<C>".data 9 0 [] = findGenericsLoop "A<+ B<C>".data 8 2 []) :=
  ⟨(C7_comparison_disambiguation.2.2.2 "if (x <= 5)".data 11 4 [] 4 5 6 "x".data
      (by decide) (by decide) (by decide) (by decide) (by decide) (by decide)).1
      (Or.inl (by decide)),
   (C7_comparison_disambiguation.2.2.2 "A<+ B<C>".data 8 0 [] 0 1 1 "A".data
      (by decide) (by decide) (by decide) (by decide) (by decide) (by decide)).2
      ⟨"expected type name", 2⟩ (by decide) (by decide) (by decide)⟩



/-- C8: for files containing generic class definitions, usage collection
scans only the concatenation of the definition bodies, never the
declaration lines; hence the declaration Queue of T is not recorded as a
usage while the body usage Queue of Boolean is. -/
theorem C8_scan_bodies_only :
    (∀ content : Str,
      ((FindGenericClassDefinitions content).toOption.getD []) ≠ [] →
      getContentToScan content =
        List.intercalate "\n".data
          (((FindGenericClassDefinitions content).toOption.getD []).map (fun d => d.2.body)))
    ∧ mapLookup
        (collectUsages (collectTemplates NewTranspiler bodyUsageFiles []).1 bodyUsageFiles []).1.usages
        "Queue<Boolean>".data = some (.mk "Queue".data [.mk "Boolean".data [] true] false)
    ∧ mapLookup
        (collectUsages (collectTemplates NewTranspiler bodyUsageFiles []).1 bodyUsageFiles []).1.usages
        "Queue<T>".data = none
    ∧ (collectUsages (collectTemplates NewTranspiler bodyUsageFiles []).1 bodyUsageFiles []).1.usages.map
        (fun u => u.1) = ["Queue<Boolean>".data] := by
  refine ⟨?_, by decide, by decide, by decide⟩
  intro content h
  unfold getContentToScan
  cases hfd : FindGenericClassDefinitions content with
  | error e => rw [hfd] at h; simp [Except.toOption] at h
  | ok defs =>
      rw [hfd] at h
      simp only [Except.toOption, Option.getD_some] at h
      simp only [Except.toOption, Option.getD_some]
      rw [if_pos (List.length_pos.mpr h)]

/-- C8 witness: the body-only conjunct applied to the scenario file. -/
theorem C8_scan_bodies_only_witness :
    ((FindGenericClassDefinitions "class Queue<T> \x7b Queue<Boolean> q; \x7d".data).toOption.getD []) ≠ []
    ∧ getContentToScan "class Queue<T> \x7b Queue<Boolean> q; \x7d".data =
        List.intercalate "\n".data
          (((FindGenericClassDefinitions
              "class Queue<T> \x7b Queue<Boolean> q; \x7d".data).toOption.getD []).map
            (fun d => d.2.body)) :=
  ⟨by decide, C8_scan_bodies_only.1 "class Queue<T> \x7b Queue<Boolean> q; \x7d".data (by decide)⟩

/- ### C3: discovery errors suppress all output generation -/



/-- A fold whose step only ever appends error markers to the result list
and raises the flag exactly when it appends. -/
theorem foldl_marker_spec {β : Type}
    (step : (Transpiler × List FileResult × Bool) → β → (Transpiler × List FileResult × Bool))
    (hstep : ∀ acc b, ∃ tl, (step acc b).2.1 = acc.2.1 ++ tl ∧
      (∀ r ∈ tl, isErrorMarker r) ∧ (step acc b).2.2 = (acc.2.2 || !tl.isEmpty)) :
    ∀ (l : List β) (acc : Transpiler × List FileResult × Bool),
      ∃ tail, (l.foldl step acc).2.1 = acc.2.1 ++ tail ∧
        (∀ r ∈ tail, isErrorMarker r) ∧
        (l.foldl step acc).2.2 = (acc.2.2 || !tail.isEmpty) := by
  intro l
  induction l with
  | nil => intro acc; exact ⟨[], by simp, by simp, by simp⟩
  | cons b bs ih =>
      intro acc
      rw [List.foldl_cons]
      obtain ⟨tl1, e1, m1, f1⟩ := hstep acc b
      obtain ⟨tl2, e2, m2, f2⟩ := ih (step acc b)
      refine ⟨tl1 ++ tl2, ?_, ?_, ?_⟩
      · rw [e2, e1, List.append_assoc]
      · intro r hr
        rcases List.mem_append.mp hr with h | h
        exacts [m1 r h, m2 r h]
      · rw [f2, f1]
        cases tl1 <;> cases tl2 <;> simp [Bool.or_assoc]

/-- A fold whose step never touches the result list or the flag. -/
theorem foldl_preserving_spec {β : Type}
    (step : (Transpiler × List FileResult × Bool) → β → (Transpiler × List FileResult × Bool))
    (hstep : ∀ acc b, (step acc b).2.1 = acc.2.1 ∧ (step acc b).2.2 = acc.2.2) :
    ∀ (l : List β) (acc : Transpiler × List FileResult × Bool),
      (l.foldl step acc).2.1 = acc.2.1 ∧ (l.foldl step acc).2.2 = acc.2.2 := by
  intro l
  induction l with
  | nil => intro acc; exact ⟨rfl, rfl⟩
  | cons b bs ih =>
      intro acc
      rw [List.foldl_cons]
      obtain ⟨e1, f1⟩ := hstep acc b
      obtain ⟨e2, f2⟩ := ih (step acc b)
      exact ⟨e2.trans e1, f2.trans f1⟩

/-- The phase 1 step appends exactly one marker on a scan error and
nothing otherwise. -/
theorem collectTemplatesStep_spec (acc : Transpiler × List FileResult × Bool) (f : Str × Str) :
    ∃ tl, (collectTemplatesStep acc f).2.1 = acc.2.1 ++ tl ∧
      (∀ r ∈ tl, isErrorMarker r) ∧
      (collectTemplatesStep acc f).2.2 = (acc.2.2 || !tl.isEmpty) := by
  obtain ⟨t, results, flag⟩ := acc
  cases hfd : FindGenericClassDefinitions f.2 with
  | error e =>
      refine ⟨[⟨f.1, [], [], false, some (.parse e)⟩], ?_, ?_, ?_⟩
      · simp [collectTemplatesStep, hfd]
      · intro r hr
        simp only [List.mem_singleton] at hr
        subst hr
        simp [isErrorMarker]
      · simp [collectTemplatesStep, hfd]
  | ok defs =>
      exact ⟨[], by simp [collectTemplatesStep, hfd], by simp, by simp [collectTemplatesStep, hfd]⟩

/-- The phase 1.1 step touches neither results nor the flag. -/
theorem collectMethodTemplatesStep_spec (acc : Transpiler × List FileResult × Bool)
    (f : Str × Str) :
    (collectMethodTemplatesStep acc f).2.1 = acc.2.1 ∧
      (collectMethodTemplatesStep acc f).2.2 = acc.2.2 := by
  obtain ⟨t, results, flag⟩ := acc
  cases hfd : FindGenericClassDefinitions f.2 with
  | error e => exact ⟨by simp [collectMethodTemplatesStep, hfd], by simp [collectMethodTemplatesStep, hfd]⟩
  | ok defs => exact ⟨by simp [collectMethodTemplatesStep, hfd], by simp [collectMethodTemplatesStep, hfd]⟩

/-- The phase 1.5 step appends exactly one marker on a configuration
error and nothing otherwise. -/
theorem processInstantiationsStep_spec (acc : Transpiler × List FileResult × Bool) (inst : Str) :
    ∃ tl, (processInstantiationsStep acc inst).2.1 = acc.2.1 ++ tl ∧
      (∀ r ∈ tl, isErrorMarker r) ∧
      (processInstantiationsStep acc inst).2.2 = (acc.2.2 || !tl.isEmpty) := by
  obtain ⟨t, results, flag⟩ := acc
  cases hpi : parseInstantiation inst with
  | error msg =>
      refine ⟨[⟨"peakconfig.json".data, [], [], false,
        some (.config ("invalid instantiation: " ++ msg))⟩], ?_, ?_, ?_⟩
      · simp [processInstantiationsStep, hpi]
      · intro r hr
        simp only [List.mem_singleton] at hr
        subst hr
        simp [isErrorMarker]
      · simp [processInstantiationsStep, hpi]
  | ok expr =>
      by_cases hlk : (mapLookup t.templates expr.baseType).isNone
      · refine ⟨[⟨"peakconfig.json".data, [], [], false,
          some (.config "instantiation references undefined template")⟩], ?_, ?_, ?_⟩
        · simp [processInstantiationsStep, hpi, hlk]
        · intro r hr
          simp only [List.mem_singleton] at hr
          subst hr
          simp [isErrorMarker]
        · simp [processInstantiationsStep, hpi, hlk]
      · exact ⟨[], by simp [processInstantiationsStep, hpi, hlk],
          by simp, by simp [processInstantiationsStep, hpi, hlk]⟩

/-- The phase 1.6 step appends exactly one marker on a configuration
error and nothing otherwise. -/
theorem processMethodInstantiationsStep_spec (acc : Transpiler × List FileResult × Bool)
    (mk : Str × List Str) :
    ∃ tl, (processMethodInstantiationsStep acc mk).2.1 = acc.2.1 ++ tl ∧
      (∀ r ∈ tl, isErrorMarker r) ∧
      (processMethodInstantiationsStep acc mk).2.2 = (acc.2.2 || !tl.isEmpty) := by
  obtain ⟨t, results, flag⟩ := acc
  by_cases hlk : (mapLookup t.methodTemplates mk.1).isNone
  · refine ⟨[⟨"peakconfig.json".data, [], [], false,
      some (.config "method instantiation references undefined generic method")⟩], ?_, ?_, ?_⟩
    · simp [processMethodInstantiationsStep, hlk]
    · intro r hr
      simp only [List.mem_singleton] at hr
      subst hr
      simp [isErrorMarker]
    · simp [processMethodInstantiationsStep, hlk]
  · exact ⟨[], by simp [processMethodInstantiationsStep, hlk],
      by simp, by simp [processMethodInstantiationsStep, hlk]⟩

/-- The phase 2 step touches neither results nor the flag. -/
theorem collectUsagesStep_spec (acc : Transpiler × List FileResult × Bool) (f : Str × Str) :
    (collectUsagesStep acc f).2.1 = acc.2.1 ∧ (collectUsagesStep acc f).2.2 = acc.2.2 := by
  obtain ⟨t, results, flag⟩ := acc
  exact ⟨rfl, rfl⟩

/-- Phase 1: the results grow by error markers only and the flag reports
exactly whether any were appended. -/
theorem collectTemplates_spec (t : Transpiler) (files : List (Str × Str))
    (results : List FileResult) :
    ∃ tail, (collectTemplates t files results).2.1 = results ++ tail ∧
      (∀ r ∈ tail, isErrorMarker r) ∧
      (collectTemplates t files results).2.2 = !tail.isEmpty := by
  unfold collectTemplates
  obtain ⟨tail, e, m, f⟩ :=
    foldl_marker_spec collectTemplatesStep collectTemplatesStep_spec files (t, results, false)
  exact ⟨tail, e, m, by rw [f]; simp⟩

/-- Phase 1.1 leaves the results and flag untouched. -/
theorem collectMethodTemplates_spec (t : Transpiler) (files : List (Str × Str))
    (results : List FileResult) :
    (collectMethodTemplates t files results).2.1 = results ∧
      (collectMethodTemplates t files results).2.2 = false :=
  foldl_preserving_spec collectMethodTemplatesStep collectMethodTemplatesStep_spec files
    (t, results, false)

/-- Phase 1.5: the results grow by error markers only and the flag
reports exactly whether any were appended. -/
theorem processInstantiations_spec (t : Transpiler) (results : List FileResult) :
    ∃ tail, (processInstantiations t results).2.1 = results ++ tail ∧
      (∀ r ∈ tail, isErrorMarker r) ∧
      (processInstantiations t results).2.2 = !tail.isEmpty := by
  unfold processInstantiations
  by_cases h : t.instantiations.length = 0
  · rw [if_pos h]
    exact ⟨[], by simp, by simp, by simp⟩
  · rw [if_neg h]
    obtain ⟨tail, e, m, f⟩ := foldl_marker_spec processInstantiationsStep
      processInstantiationsStep_spec t.instantiations (t, results, false)
    exact ⟨tail, e, m, by rw [f]; simp⟩

/-- Phase 1.6: the results grow by error markers only and the flag
reports exactly whether any were appended. -/
theorem processMethodInstantiations_spec (t : Transpiler) (results : List FileResult) :
    ∃ tail, (processMethodInstantiations t results).2.1 = results ++ tail ∧
      (∀ r ∈ tail, isErrorMarker r) ∧
      (processMethodInstantiations t results).2.2 = !tail.isEmpty := by
  cases hspec : t.instantiateSpec with
  | none =>
      have hred : processMethodInstantiations t results = (t, results, false) := by
        unfold processMethodInstantiations
        rw [hspec]
      rw [hred]
      exact ⟨[], by simp, by simp, by simp⟩
  | some spec =>
      have hred : processMethodInstantiations t results =
          (if spec.methods.length = 0 then (t, results, false)
           else spec.methods.foldl processMethodInstantiationsStep (t, results, false)) := by
        unfold processMethodInstantiations
        rw [hspec]
      rw [hred]
      by_cases h : spec.methods.length = 0
      · rw [if_pos h]
        exact ⟨[], by simp, by simp, by simp⟩
      · rw [if_neg h]
        obtain ⟨tail, e, m, f⟩ := foldl_marker_spec processMethodInstantiationsStep
          processMethodInstantiationsStep_spec spec.methods (t, results, false)
        exact ⟨tail, e, m, by rw [f]; simp⟩

/-- Phase 2 leaves the results and flag untouched. -/
theorem collectUsages_spec (t : Transpiler) (files : List (Str × Str))
    (results : List FileResult) :
    (collectUsages t files results).2.1 = results ∧
      (collectUsages t files results).2.2 = false :=
  foldl_preserving_spec collectUsagesStep collectUsagesStep_spec files (t, results, false)

/-- Discovery produces error markers only, and its flag is raised exactly
when some marker was recorded. -/
theorem discoverPhases_spec (t : Transpiler) (files : List (Str × Str)) :
    (∀ r ∈ (discoverPhases t files).results, isErrorMarker r) ∧
      ((discoverPhases t files).hasErrors = true →
        ∃ r ∈ (discoverPhases t files).results, r.error.isSome = true) := by
  obtain ⟨tail1, e1, m1, f1⟩ := collectTemplates_spec t files []
  obtain ⟨ec2, ef2⟩ := collectMethodTemplates_spec (collectTemplates t files []).1 files
    (collectTemplates t files []).2.1
  obtain ⟨tail3, e3, m3, f3⟩ := processInstantiations_spec
    (collectMethodTemplates (collectTemplates t files []).1 files
      (collectTemplates t files []).2.1).1
    (collectMethodTemplates (collectTemplates t files []).1 files
      (collectTemplates t files []).2.1).2.1
  obtain ⟨tail4, e4, m4, f4⟩ := processMethodInstantiations_spec
    (processInstantiations
      (collectMethodTemplates (collectTemplates t files []).1 files
        (collectTemplates t files []).2.1).1
      (collectMethodTemplates (collectTemplates t files []).1 files
        (collectTemplates t files []).2.1).2.1).1
    (processInstantiations
      (collectMethodTemplates (collectTemplates t files []).1 files
        (collectTemplates t files []).2.1).1
      (collectMethodTemplates (collectTemplates t files []).1 files
        (collectTemplates t files []).2.1).2.1).2.1
  obtain ⟨ec5, ef5⟩ := collectUsages_spec
    (processMethodInstantiations
      (processInstantiations
        (collectMethodTemplates (collectTemplates t files []).1 files
          (collectTemplates t files []).2.1).1
        (collectMethodTemplates (collectTemplates t files []).1 files
          (collectTemplates t files []).2.1).2.1).1
      (processInstantiations
        (collectMethodTemplates (collectTemplates t files []).1 files
          (collectTemplates t files []).2.1).1
        (collectMethodTemplates (collectTemplates t files []).1 files
          (collectTemplates t files []).2.1).2.1).2.1).1
    files
    (processMethodInstantiations
      (processInstantiations
        (collectMethodTemplates (collectTemplates t files []).1 files
          (collectTemplates t files []).2.1).1
        (collectMethodTemplates (collectTemplates t files []).1 files
          (collectTemplates t files []).2.1).2.1).1
      (processInstantiations
        (collectMethodTemplates (collectTemplates t files []).1 files
          (collectTemplates t files []).2.1).1
        (collectMethodTemplates (collectTemplates t files []).1 files
          (collectTemplates t files []).2.1).2.1).2.1).2.1
  have hres : (discoverPhases t files).results = (([] ++ tail1) ++ tail3) ++ tail4 := by
    refine (ec5.trans e4).trans ?_
    rw [e3, ec2, e1]
  have hflag : (discoverPhases t files).hasErrors = true →
      tail1 ≠ [] ∨ tail3 ≠ [] ∨ tail4 ≠ [] := by
    intro h
    have hfl : (discoverPhases t files).hasErrors =
        ((!tail1.isEmpty || false || !tail3.isEmpty) || !tail4.isEmpty || false) := by
      show ((collectTemplates t files []).2.2 || _ || _ || _ || _) = _
      rw [f1, ef2, f3, f4, ef5]
    rw [hfl] at h
    simp only [Bool.or_false, Bool.false_or, Bool.or_eq_true, Bool.not_eq_true',
      List.isEmpty_eq_false] at h
    tauto
  constructor
  · intro r hr
    rw [hres] at hr
    rcases List.mem_append.mp hr with hr | hr
    · rcases List.mem_append.mp hr with hr | hr
      · rcases List.mem_append.mp hr with hr | hr
        · exact absurd hr (List.not_mem_nil r)
        · exact m1 r hr
      · exact m3 r hr
    · exact m4 r hr
  · intro h
    rcases hflag h with hne | hne | hne
    · obtain ⟨r, hr⟩ := List.exists_mem_of_ne_nil tail1 hne
      exact ⟨r, by rw [hres]; simp [List.mem_append, hr], (m1 r hr).1⟩
    · obtain ⟨r, hr⟩ := List.exists_mem_of_ne_nil tail3 hne
      exact ⟨r, by rw [hres]; simp [List.mem_append, hr], (m3 r hr).1⟩
    · obtain ⟨r, hr⟩ := List.exists_mem_of_ne_nil tail4 hne
      exact ⟨r, by rw [hres]; simp [List.mem_append, hr], (m4 r hr).1⟩

/-- C3: if any discovery-phase scan (template collection, method
collection, forced-instantiation validation or usage collection) records
an error, the output-generation phases are skipped for the whole run: the
accumulated per-file error results are the sole result, at least one of
them carries an error, and none carries transpiled or concrete-class
content. -/
theorem C3_discovery_errors_skip_output (t : Transpiler) (files : List (Str × Str))
    (h : (discoverPhases t files).hasErrors = true) :
    TranspileFiles t files = (discoverPhases t files).results
    ∧ (∀ r ∈ TranspileFiles t files,
        r.error.isSome = true ∧ r.content = [] ∧ r.outputPath = [] ∧ r.isTemplate = false)
    ∧ (∃ r ∈ TranspileFiles t files, r.error.isSome = true) := by
  have heq : TranspileFiles t files = (discoverPhases t files).results := by
    unfold TranspileFiles
    rw [if_pos h]
  obtain ⟨hmark, hex⟩ := discoverPhases_spec t files
  refine ⟨heq, ?_, ?_⟩
  · rw [heq]
    exact fun r hr => hmark r hr
  · rw [heq]
    exact hex h



/-- C3 witness: the theorem applied to a run whose template collection
records a doubled-angle-bracket error. -/
theorem C3_discovery_errors_skip_output_witness :
    (discoverPhases NewTranspiler badAngleFiles).hasErrors = true
    ∧ (TranspileFiles NewTranspiler badAngleFiles =
        (discoverPhases NewTranspiler badAngleFiles).results
      ∧ (∀ r ∈ TranspileFiles NewTranspiler badAngleFiles,
          r.error.isSome = true ∧ r.content = [] ∧ r.outputPath = [] ∧ r.isTemplate = false)
      ∧ (∃ r ∈ TranspileFiles NewTranspiler badAngleFiles, r.error.isSome = true)) :=
  ⟨by decide, C3_discovery_errors_skip_output NewTranspiler badAngleFiles (by decide)⟩



/-- In-range reads of charAt are list indexing. -/
theorem charAt_eq_getElem (s : Str) (i : Nat) (h : i < s.length) : charAt s i = s[i] :=
  List.getD_eq_getElem s _ h

/-- charAt through drop. -/
theorem charAt_drop (s : Str) (i d : Nat) : charAt (s.drop i) d = charAt s (i + d) := by
  simp [charAt, List.getD, List.getElem?_drop]

/-- charAt through take, within the taken range. -/
theorem charAt_take (s : Str) (k d : Nat) (h : d < k) : charAt (s.take k) d = charAt s d := by
  simp [charAt, List.getD, List.getElem?_take, h]

/-- In-range characters are members. -/
theorem charAt_mem (s : Str) (d : Nat) (h : d < s.length) : charAt s d ∈ s := by
  rw [charAt_eq_getElem s d h]
  exact List.getElem_mem h

/-- Peeling the first character off a slice. -/
theorem strSlice_cons (s : Str) (i p : Nat) (hip : i < p) (hlen : i < s.length) :
    strSlice s i p = charAt s i :: strSlice s (i+1) p := by
  unfold strSlice
  rw [List.drop_eq_getElem_cons hlen, ← charAt_eq_getElem s i hlen]
  rw [show p - i = (p - (i+1)) + 1 from by omega, List.take_succ_cons]

/-- Inside a matched occurrence the text agrees with the parameter. -/
theorem charAt_param_of_matches (s param : Str) (i d : Nat)
    (hm : strSlice s i (i + param.length) = param) (hd : d < param.length) :
    charAt s (i + d) = charAt param d := by
  rw [← hm]
  unfold strSlice
  rw [show i + param.length - i = param.length from by omega]
  rw [charAt_take _ _ _ hd, charAt_drop]

/-- No boundary-free occurrence starts strictly inside another matched occurrence of an identifier-character parameter: the preceding character would be a parameter character. -/
theorem freeAt_overlap (s param : Str) (i j : Nat)
    (hid : ∀ c ∈ param, isIdentifierChar c = true)
    (hfree : freeAt s param i = true) (hij : i < j) (hj : j < i + param.length) :
    freeAt s param j = false := by
  have hm : strSlice s i (i + param.length) = param := by
    have := hfree
    unfold freeAt at this
    simp only [Bool.and_eq_true, decide_eq_true_eq] at this
    exact this.1.1.2
  have hd : j - 1 - i < param.length := by omega
  have hident : isIdentifierChar (charAt s (j-1)) = true := by
    have : charAt s (i + (j - 1 - i)) = charAt param (j - 1 - i) :=
      charAt_param_of_matches s param i (j - 1 - i) hm hd
    rw [show i + (j - 1 - i) = j - 1 from by omega] at this
    rw [this]
    exact hid _ (charAt_mem param _ hd)
  have hj0 : ¬ (j = 0) := by omega
  unfold freeAt
  simp [hident, hj0]

/-- Past the end there are no occurrences. -/
theorem freeSuffix_ge (s param : Str) (i : Nat) (h : s.length ≤ i) :
    freeSuffix s param i = [] := by
  unfold freeSuffix
  rw [show s.length - i = 0 from by omega]
  rfl

/-- One-position unfolding of freeSuffix. -/
theorem freeSuffix_unfold (s param : Str) (i : Nat) (h : i < s.length) :
    freeSuffix s param i =
      (if freeAt s param i then i :: freeSuffix s param (i+1) else freeSuffix s param (i+1)) := by
  unfold freeSuffix
  rw [show s.length - i = (s.length - (i+1)) + 1 from by omega, List.range'_succ, List.filter_cons]

/-- Members of freeSuffix are at or beyond its start. -/
theorem freeSuffix_mem_ge (s param : Str) (i p : Nat) (hp : p ∈ freeSuffix s param i) : i ≤ p := by
  unfold freeSuffix at hp
  have := List.mem_filter.mp hp
  have hmem := this.1
  rw [List.mem_range'_1] at hmem
  omega

/-- freeSuffix is unchanged across a stretch of non-occurrences. -/
theorem freeSuffix_skip (s param : Str) : ∀ (k a : Nat),
    (∀ j, a ≤ j → j < a + k → freeAt s param j = false) →
    freeSuffix s param (a + k) = freeSuffix s param a := by
  intro k
  induction k with
  | zero => intro a _; rfl
  | succ k ih =>
      intro a hall
      by_cases ha : a < s.length
      · rw [freeSuffix_unfold s param a ha, if_neg (by simp [hall a (le_refl a) (by omega)])]
        rw [show a + (k+1) = (a+1) + k from by omega]
        exact ih (a+1) (fun j h1 h2 => hall j (by omega) (by omega))
      · rw [freeSuffix_ge s param a (by omega), freeSuffix_ge s param (a + (k+1)) (by omega)]

/-- Copying one character ahead of all replacement positions. -/
theorem spliceAt_step (s rep : Str) (plen i : Nat) (l : List Nat)
    (hl : ∀ p ∈ l, i < p) (hlen : i < s.length) :
    spliceAt s rep plen i l = charAt s i :: spliceAt s rep plen (i+1) l := by
  cases l with
  | nil =>
      unfold spliceAt
      rw [List.drop_eq_getElem_cons hlen, ← charAt_eq_getElem s i hlen]
  | cons p ps =>
      unfold spliceAt
      rw [strSlice_cons s i p (hl p (List.mem_cons_self p ps)) hlen]
      simp

/-- The scanning loop of replaceTypeParameter replaces exactly the boundary-free occurrences, for a nonempty parameter made of identifier characters. -/
theorem rtpAux_eq_spliceAt (s param rep : Str) (hne : param ≠ [])
    (hid : ∀ c ∈ param, isIdentifierChar c = true) :
    ∀ (fuel i : Nat), s.length ≤ fuel + i →
      replaceTypeParameterAux s param rep fuel i =
        spliceAt s rep param.length i (freeSuffix s param i) := by
  intro fuel
  induction fuel with
  | zero =>
      intro i hfi
      rw [freeSuffix_ge s param i (by omega)]
      unfold replaceTypeParameterAux spliceAt
      rw [List.drop_eq_nil_of_le (by omega)]
  | succ fuel ih =>
      intro i hfi
      by_cases hlt : i < s.length
      · rw [freeSuffix_unfold s param i hlt]
        by_cases hf : freeAt s param i
        · rw [if_pos hf]
          have hplen : 1 ≤ param.length := by
            cases param with
            | nil => exact absurd rfl hne
            | cons c cs => simp
          have hskip : freeSuffix s param (i + 1 + (param.length - 1)) = freeSuffix s param (i+1) :=
            freeSuffix_skip s param (param.length - 1) (i+1)
              (fun j h1 h2 => freeAt_overlap s param i j hid hf (by omega) (by omega))
          rw [show i + 1 + (param.length - 1) = i + param.length from by omega] at hskip
          show replaceTypeParameterAux s param rep (fuel+1) i = _
          unfold replaceTypeParameterAux
          rw [if_pos hlt, if_pos hf]
          unfold spliceAt
          rw [strSlice, show i - i = 0 from by omega]
          simp only [List.take_zero, List.nil_append]
          rw [← hskip, ih (i + param.length) (by omega)]
        · rw [if_neg hf]
          show replaceTypeParameterAux s param rep (fuel+1) i = _
          unfold replaceTypeParameterAux
          rw [if_pos hlt, if_neg hf]
          rw [spliceAt_step s rep param.length i (freeSuffix s param (i+1))
            (fun p hp => by have := freeSuffix_mem_ge s param (i+1) p hp; omega) hlt]
          rw [ih (i+1) (by omega)]
      · rw [freeSuffix_ge s param i (by omega)]
        unfold replaceTypeParameterAux spliceAt
        rw [if_neg hlt, List.drop_eq_nil_of_le (by omega)]

/-- replaceTypeParameter replaces an occurrence of the parameter exactly when neither neighbouring character is an identifier character. -/
theorem replaceTypeParameter_eq_spliceAt (input param rep : Str) (hne : param ≠ [])
    (hid : ∀ c ∈ param, isIdentifierChar c = true) :
    replaceTypeParameter input param rep =
      spliceAt input rep param.length 0 (freeOccurrences input param) := by
  unfold replaceTypeParameter
  rw [rtpAux_eq_spliceAt input param rep hne hid (input.length + 1) 0 (by omega)]
  congr 1
  unfold freeSuffix freeOccurrences
  rw [List.range_eq_range']
  rfl

/-- C5: replaceTypeParameter replaces an occurrence of the parameter if
and only if neither the character before nor the character after it is an
identifier character (stated for nonempty parameter names made of
identifier characters): the output is precisely the splice of the
replacement at every boundary-free occurrence position.  In particular,
for every replacement string, substituting parameter T never alters
String or Tuple and always replaces a standalone T token regardless of
surrounding punctuation. -/
theorem C5_word_boundary (input param rep : Str) (hne : param ≠ [])
    (hid : ∀ c ∈ param, isIdentifierChar c = true) :
    replaceTypeParameter input param rep =
      spliceAt input rep param.length 0 (freeOccurrences input param)
    ∧ replaceTypeParameter "String".data "T".data rep = "String".data
    ∧ replaceTypeParameter "Tuple".data "T".data rep = "Tuple".data
    ∧ replaceTypeParameter "T".data "T".data rep = rep
    ∧ replaceTypeParameter "(T)".data "T".data rep = '(' :: (rep ++ ")".data)
    ∧ replaceTypeParameter "<T>".data "T".data rep = '<' :: (rep ++ ">".data)
    ∧ replaceTypeParameter "T;".data "T".data rep = rep ++ ";".data := by
  refine ⟨replaceTypeParameter_eq_spliceAt input param rep hne hid, ?_, ?_, ?_, ?_, ?_, ?_⟩
  all_goals rw [replaceTypeParameter_eq_spliceAt _ _ rep (by decide) (by decide)]
  · rw [show freeOccurrences "String".data "T".data = [] from by decide]
    rfl
  · rw [show freeOccurrences "Tuple".data "T".data = [] from by decide]
    rfl
  · rw [show freeOccurrences "T".data "T".data = [0] from by decide]
    simp [spliceAt, strSlice]
  · rw [show freeOccurrences "(T)".data "T".data = [1] from by decide]
    simp [spliceAt, strSlice]
  · rw [show freeOccurrences "<T>".data "T".data = [1] from by decide]
    simp [spliceAt, strSlice]
  · rw [show freeOccurrences "T;".data "T".data = [0] from by decide]
    simp [spliceAt, strSlice]

/-- C5 witness: the characterization applied to a concrete input. -/
theorem C5_word_boundary_witness :
    replaceTypeParameter "Tuple T;".data "T".data "Integer".data =
      spliceAt "Tuple T;".data "Integer".data ("T".data).length 0
        (freeOccurrences "Tuple T;".data "T".data) :=
  (C5_word_boundary "Tuple T;".data "T".data "Integer".data (by decide) (by decide)).1
